import Mathlib

/-!
Verification of the news-perspectives pipeline: LLM response extraction
(`agents/news_perspectives/model_analyzer.py`), rate-limit retry, perspective
synthesis (`agents/news_perspectives/perspective_synthesizer.py`), and the two
offline artifact repair passes (`fix_analysis_json.py`, `fix_json_fences.py`).

Python values decoded by `json.loads` are modelled by the inductive type
`Json` below; `Json.parse` is an executable model of `json.loads`.
Modelling notes for `Json.parse`:
* numbers are modelled as integers; fractional and exponent literals are not
  modelled (no analysed code path manipulates fractional JSON numbers);
* the escape sequences handled are the single-character ones; a backslash-u
  escape is rejected (no analysed input uses it);
* object members are kept as an ordered association list, mirroring Python
  dict insertion order, with a later duplicate key overwriting in place.
-/

namespace NewsPipeline

/-- A decoded JSON value, the result type of Python `json.loads`. -/
inductive Json where
  | null : Json
  | bool : Bool → Json
  | num : Int → Json
  | str : String → Json
  | arr : List Json → Json
  | obj : List (String × Json) → Json
deriving Repr

/-- The `{` character (written numerically for linting reasons). -/
def lbrace : Char := Char.ofNat 123

/-- The `}` character. -/
def rbrace : Char := Char.ofNat 125

mutual

/-- Boolean equality on JSON values. -/
def Json.beq : Json → Json → Bool
  | .null, .null => true
  | .bool a, .bool b => a == b
  | .num a, .num b => a == b
  | .str a, .str b => a == b
  | .arr a, .arr b => Json.beqList a b
  | .obj a, .obj b => Json.beqKVList a b
  | _, _ => false

/-- Boolean equality on lists of JSON values. -/
def Json.beqList : List Json → List Json → Bool
  | [], [] => true
  | a :: as', b :: bs' => Json.beq a b && Json.beqList as' bs'
  | _, _ => false

/-- Boolean equality on JSON object member lists. -/
def Json.beqKVList : List (String × Json) → List (String × Json) → Bool
  | [], [] => true
  | (ka, va) :: as', (kb, vb) :: bs' => ka == kb && Json.beq va vb && Json.beqKVList as' bs'
  | _, _ => false

end

mutual

theorem Json.beq_iff : ∀ a b : Json, Json.beq a b = true ↔ a = b
  | .null, .null => by simp [Json.beq]
  | .null, .bool _ | .null, .num _ | .null, .str _ | .null, .arr _ | .null, .obj _ => by
      simp [Json.beq]
  | .bool _, .null | .bool _, .num _ | .bool _, .str _ | .bool _, .arr _ | .bool _, .obj _ => by
      simp [Json.beq]
  | .bool a, .bool b => by simp [Json.beq]
  | .num _, .null | .num _, .bool _ | .num _, .str _ | .num _, .arr _ | .num _, .obj _ => by
      simp [Json.beq]
  | .num a, .num b => by simp [Json.beq]
  | .str _, .null | .str _, .bool _ | .str _, .num _ | .str _, .arr _ | .str _, .obj _ => by
      simp [Json.beq]
  | .str a, .str b => by simp [Json.beq]
  | .arr _, .null | .arr _, .bool _ | .arr _, .num _ | .arr _, .str _ | .arr _, .obj _ => by
      simp [Json.beq]
  | .arr a, .arr b => by
      simp only [Json.beq, Json.beqList_iff a b, arr.injEq]
  | .obj _, .null | .obj _, .bool _ | .obj _, .num _ | .obj _, .str _ | .obj _, .arr _ => by
      simp [Json.beq]
  | .obj a, .obj b => by
      simp only [Json.beq, Json.beqKVList_iff a b, obj.injEq]

theorem Json.beqList_iff : ∀ a b : List Json, Json.beqList a b = true ↔ a = b
  | [], [] => by simp [Json.beqList]
  | [], _ :: _ => by simp [Json.beqList]
  | _ :: _, [] => by simp [Json.beqList]
  | a :: as', b :: bs' => by
      simp only [Json.beqList, Bool.and_eq_true, Json.beq_iff a b,
        Json.beqList_iff as' bs', List.cons.injEq]

theorem Json.beqKVList_iff : ∀ a b : List (String × Json), Json.beqKVList a b = true ↔ a = b
  | [], [] => by simp [Json.beqKVList]
  | [], _ :: _ => by simp [Json.beqKVList]
  | _ :: _, [] => by simp [Json.beqKVList]
  | (ka, va) :: as', (kb, vb) :: bs' => by
      simp only [Json.beqKVList, Bool.and_eq_true, Json.beq_iff va vb,
        Json.beqKVList_iff as' bs', List.cons.injEq, beq_iff_eq, Prod.mk.injEq]

end

instance : DecidableEq Json := fun a b =>
  decidable_of_iff (Json.beq a b = true) (Json.beq_iff a b)

/-- JSON whitespace, the characters skipped between tokens by `json.loads`. -/
def isJsonWs (c : Char) : Bool :=
  c = ' ' || c = '\n' || c = '\t' || c = '\r'

/-- Drop leading JSON whitespace. -/
def skipWs : List Char → List Char
  | [] => []
  | c :: cs => if isJsonWs c then skipWs cs else c :: cs

/-- Look up a key in an ordered association list (first match). -/
def assocFind {α : Type} : List (String × α) → String → Option α
  | [], _ => none
  | (k', v) :: rest, k => if k' = k then some v else assocFind rest k

/-- Python dict assignment on an ordered association list: an existing key is
overwritten in place, a new key is appended at the end. -/
def objInsert {α : Type} : List (String × α) → String → α → List (String × α)
  | [], k, v => [(k, v)]
  | (k', v') :: rest, k, v =>
    if k' = k then (k', v) :: rest else (k', v') :: objInsert rest k v

/-- Decode the body of a JSON string literal (after the opening quote),
accumulating the characters seen so far in reverse. Handles the
single-character escapes; rejects a raw control character, an unknown escape
(including backslash-u, see the module comment), and an unterminated string. -/
def parseStrBody : List Char → List Char → Option (String × List Char)
  | _, [] => none
  | acc, c :: cs =>
    if c = '"' then some (String.mk acc.reverse, cs)
    else if c = '\\' then
      match cs with
      | [] => none
      | e :: cs' =>
        if e = '"' then parseStrBody ('"' :: acc) cs'
        else if e = '\\' then parseStrBody ('\\' :: acc) cs'
        else if e = '/' then parseStrBody ('/' :: acc) cs'
        else if e = 'n' then parseStrBody ('\n' :: acc) cs'
        else if e = 't' then parseStrBody ('\t' :: acc) cs'
        else if e = 'r' then parseStrBody ('\r' :: acc) cs'
        else if e = 'b' then parseStrBody ('\x08' :: acc) cs'
        else if e = 'f' then parseStrBody ('\x0c' :: acc) cs'
        else none
    else if c.toNat < 32 then none
    else parseStrBody (c :: acc) cs

/-- Leading decimal digits of a character list, with the rest. -/
def takeDigits : List Char → List Char × List Char
  | [] => ([], [])
  | c :: cs =>
    if c.isDigit then
      let (ds, rest) := takeDigits cs
      (c :: ds, rest)
    else ([], c :: cs)

/-- Value of a (non-empty) digit string. -/
def digitsVal (ds : List Char) : Nat :=
  ds.foldl (fun acc c => acc * 10 + (c.toNat - 48)) 0

mutual

/-- Parse one JSON value from the input, returning it with the unconsumed
rest. Fuel-based recursive descent; the fuel passed by `Json.parse` always
suffices. -/
def parseValue : Nat → List Char → Option (Json × List Char)
  | 0, _ => none
  | fuel + 1, cs =>
    match cs with
    | [] => none
    | c :: rest =>
      if c = '"' then
        match parseStrBody [] rest with
        | some (s, rest') => some (.str s, rest')
        | none => none
      else if c = lbrace then
        let rest' := skipWs rest
        match rest' with
        | d :: rest'' =>
          if d = rbrace then some (.obj [], rest'')
          else
            match parseMembers fuel rest' [] with
            | some (kvs, rest3) => some (.obj kvs, rest3)
            | none => none
        | [] => none
      else if c = '[' then
        let rest' := skipWs rest
        match rest' with
        | d :: rest'' =>
          if d = ']' then some (.arr [], rest'')
          else
            match parseElems fuel rest' [] with
            | some (vs, rest3) => some (.arr vs, rest3)
            | none => none
        | [] => none
      else if c = '-' then
        match takeDigits rest with
        | ([], _) => none
        | (ds, rest') => some (.num (-(digitsVal ds : Int)), rest')
      else if c.isDigit then
        match takeDigits (c :: rest) with
        | (ds, rest') => some (.num (digitsVal ds : Int), rest')
      else if c = 't' then
        match rest with
        | 'r' :: 'u' :: 'e' :: rest' => some (.bool true, rest')
        | _ => none
      else if c = 'f' then
        match rest with
        | 'a' :: 'l' :: 's' :: 'e' :: rest' => some (.bool false, rest')
        | _ => none
      else if c = 'n' then
        match rest with
        | 'u' :: 'l' :: 'l' :: rest' => some (.null, rest')
        | _ => none
      else none

/-- Parse the members of a JSON object after the opening brace (positioned at
the first key), accumulating decoded members with dict insertion semantics. -/
def parseMembers : Nat → List Char → List (String × Json) → Option (List (String × Json) × List Char)
  | 0, _, _ => none
  | fuel + 1, cs, acc =>
    match cs with
    | c :: rest =>
      if c = '"' then
        match parseStrBody [] rest with
        | some (k, rest1) =>
          match skipWs rest1 with
          | ':' :: rest2 =>
            match parseValue fuel (skipWs rest2) with
            | some (v, rest3) =>
              let acc' := objInsert acc k v
              match skipWs rest3 with
              | ',' :: rest4 => parseMembers fuel (skipWs rest4) acc'
              | d :: rest4 =>
                if d = rbrace then some (acc', rest4) else none
              | [] => none
            | none => none
          | _ => none
        | none => none
      else none
    | [] => none

/-- Parse the elements of a JSON array after the opening bracket (positioned
at the first element). -/
def parseElems : Nat → List Char → List Json → Option (List Json × List Char)
  | 0, _, _ => none
  | fuel + 1, cs, acc =>
    match parseValue fuel cs with
    | some (v, rest) =>
      match skipWs rest with
      | ',' :: rest' => parseElems fuel (skipWs rest') (acc ++ [v])
      | ']' :: rest' => some (acc ++ [v], rest')
      | _ => none
    | none => none

end

/-- Executable model of Python `json.loads`: parse the whole string as one
JSON value (trailing data is an error), returning `none` where `json.loads`
raises `JSONDecodeError`. See the module comment for the deliberate
restrictions (integer-only numbers, no backslash-u escape). -/
def Json.parse (s : String) : Option Json :=
  match parseValue (2 * s.length + 2) (skipWs s.data) with
  | some (v, rest) => if skipWs rest = [] then some v else none
  | none => none

/-- Members of a JSON object; `none` when the value is not an object. -/
def Json.objMembers : Json → Option (List (String × Json))
  | .obj kvs => some kvs
  | _ => none

/-- `j.look k`: the value at key `k` when `j` is an object holding it. -/
def Json.look (j : Json) (k : String) : Option Json :=
  match j with
  | .obj kvs => assocFind kvs k
  | _ => none

/-! ### Python string helpers

The Python string operations used by the analysed code, implemented directly
on the character list of the string (so that every definition in this file
evaluates by kernel reduction on concrete inputs). -/

/-- The ASCII whitespace characters stripped by Python `str.strip()`. -/
def isPySpace (c : Char) : Bool :=
  c = ' ' || c = '\t' || c = '\n' || c = '\r' || c = '\x0b' || c = '\x0c'

/-- Python `s.strip()`. -/
def pyStrip (s : String) : String :=
  String.mk (((s.data.dropWhile isPySpace).reverse.dropWhile isPySpace).reverse)

/-- Split a character list at each newline. -/
def splitNl : List Char → List (List Char)
  | [] => [[]]
  | c :: cs =>
    let rest := splitNl cs
    if c = '\n' then [] :: rest
    else
      match rest with
      | line :: rest' => (c :: line) :: rest'
      | [] => [[c]]

/-- Python `s.split('\n')`. -/
def pyLines (s : String) : List String := (splitNl s.data).map String.mk

/-- Interleave a newline between character lists. -/
def joinNl : List (List Char) → List Char
  | [] => []
  | [line] => line
  | line :: rest => line ++ '\n' :: joinNl rest

/-- Python `'\n'.join(lines)`. -/
def pyJoinNl (lines : List String) : String := String.mk (joinNl (lines.map String.data))

/-- Python `s[:n]` (first `n` characters). -/
def pyTake (s : String) (n : Nat) : String := String.mk (s.data.take n)

/-- `startsSeg pat cs`: `pat` is an initial segment of `cs`. -/
def startsSeg : List Char → List Char → Bool
  | [], _ => true
  | _ :: _, [] => false
  | p :: ps, c :: cs => p = c && startsSeg ps cs

/-- Python `s.startswith(pre)`. -/
def pyStarts (s pre : String) : Bool := startsSeg pre.data s.data

/-- `containsSeg pat cs`: `pat` occurs contiguously somewhere in `cs`. -/
def containsSeg (pat : List Char) : List Char → Bool
  | [] => startsSeg pat []
  | c :: cs => startsSeg pat (c :: cs) || containsSeg pat cs

/-- Python `pat in s` for strings. -/
def pyContains (s pat : String) : Bool := containsSeg pat.data s.data

/-- Python `a == b` for strings, reduced on the character lists. -/
def pyEq (a b : String) : Bool := a.data == b.data

/-! ### StructuredResponseExtractor
(`agents/news_perspectives/model_analyzer.py`, `analyze_article`,
lines 121–169.) -/

/-- Fence stripping from `model_analyzer.py` lines 121–129: when the stripped
text starts with a fence marker, split the stripped text into lines, drop the
first line when it starts with a fence marker, drop the last line when it is
exactly a fence marker after stripping, and rejoin; otherwise return the text
unchanged. -/
def stripFences (content : String) : String :=
  let s := pyStrip content
  if pyStarts s "```" then
    let lines := pyLines s
    let lines := if pyStarts (lines.headD "") "```" then lines.drop 1 else lines
    let lines :=
      if !lines.isEmpty && pyEq (pyStrip (lines.getLastD "")) "```" then lines.dropLast
      else lines
    pyJoinNl lines
  else content

/-- The brace scan of `model_analyzer.py` lines 141–150: walk the characters
counting nesting depth (`+1` on an opening brace, `-1` on a closing brace,
braces inside string literals counted too — knowingly naive); return the
offset one past the closing brace that brings the depth back to zero. -/
def braceScan : List Char → Int → Nat → Option Nat
  | [], _, _ => none
  | c :: cs, depth, i =>
    if c = lbrace then braceScan cs (depth + 1) (i + 1)
    else if c = rbrace then
      if depth - 1 = 0 then some (i + 1) else braceScan cs (depth - 1) (i + 1)
    else braceScan cs depth (i + 1)

/-- `model_analyzer.py` lines 136–156: locate the first opening brace, scan
for the matching closing brace by nesting depth, and return the enclosed
substring; `none` when there is no opening brace or no matching close. -/
def braceExtract (content : String) : Option String :=
  match content.data.findIdx? (· = lbrace) with
  | none => none
  | some start =>
    match braceScan (content.data.drop start) 0 0 with
    | none => none
    | some len => some (String.mk ((content.data.drop start).take len))

/-- The fallback object synthesized at `model_analyzer.py` lines 161–169 when
all parsing of the (fence-stripped) completion text `content` failed. -/
def fallbackAnalysis (content : String) : Json :=
  .obj [("summary", .str (pyTake content 300)),
        ("key_points", .arr [.str content]),
        ("sentiment", .str "neutral"),
        ("confidence", .str "medium"),
        ("bias_check", .str "Unable to parse structured response"),
        ("missing_context", .str ""),
        ("implications", .str "")]

/-- The extraction cascade of `model_analyzer.py` lines 121–169: strip an
outer fence, try a direct parse, then brace-matching recovery, then the
fallback object. The accepted parse result is returned as-is (no check of its
keys). -/
def extractAnalysis (raw : String) : Json :=
  let content := stripFences raw
  match Json.parse content with
  | some a => a
  | none =>
    match braceExtract content with
    | some js =>
      match Json.parse js with
      | some a => a
      | none => fallbackAnalysis content
    | none => fallbackAnalysis content

/-! ### RateLimitedCaller
(`model_analyzer.py`, `analyze_article`, lines 88–114.) -/

/-- A failure raised by one completion-service call: the distinguished
rate-limit error (`openai.RateLimitError`), or any other exception with its
message and type name. -/
inductive CallErr where
  | rateLimit (msg : String)
  | other (msg : String) (kind : String)
deriving DecidableEq

/-- Python `str(e)` for a transport exception. -/
def CallErr.msg : CallErr → String
  | .rateLimit m => m
  | .other m _ => m

/-- Python `type(e).__name__` for a transport exception. -/
def CallErr.kind : CallErr → String
  | .rateLimit _ => "RateLimitError"
  | .other _ k => k

/-- Token usage as reported by the transport. -/
structure TokenUsage where
  prompt_tokens : Nat
  completion_tokens : Nat
  total_tokens : Nat
deriving DecidableEq

/-- One completion response: the message content plus optional usage. -/
structure ChatResponse where
  content : String
  usage : Option TokenUsage
deriving DecidableEq

instance : DecidableEq (Except CallErr ChatResponse) := fun x y =>
  match x, y with
  | .ok a, .ok b =>
    if h : a = b then .isTrue (by rw [h]) else .isFalse (by simp [h])
  | .ok _, .error _ => .isFalse (by simp)
  | .error _, .ok _ => .isFalse (by simp)
  | .error a, .error b =>
    if h : a = b then .isTrue (by rw [h]) else .isFalse (by simp [h])

/-- The retry loop of `model_analyzer.py` lines 95–114, parameterised by the
outcome of each attempt (`att i` = outcome of attempt number `i`). `i` is the
current attempt number, `rem + 1` the number of attempts still allowed. On a
rate-limit failure with a retry left, sleep `2 * 2 ^ i` seconds and retry; on
the final attempt re-raise without sleeping; any other failure propagates
immediately. Returns the outcome together with the total seconds slept. -/
def retryFrom (att : Nat → Except CallErr ChatResponse) :
    Nat → Nat → Except CallErr ChatResponse × Nat
  | _, 0 => (.error (.rateLimit ""), 0)
  | i, rem + 1 =>
    match att i with
    | .ok r => (.ok r, 0)
    | .error (.rateLimit m) =>
      if rem = 0 then (.error (.rateLimit m), 0)
      else
        let out := retryFrom att (i + 1) rem
        (out.1, 2 * 2 ^ i + out.2)
    | .error (.other m k) => (.error (.other m k), 0)

/-- `max_retries = 3`, `base_delay = 2`: the full retry loop starting at
attempt 0 with 3 attempts allowed. -/
def callWithRetry (att : Nat → Except CallErr ChatResponse) :
    Except CallErr ChatResponse × Nat :=
  retryFrom att 0 3

/-! ### ModelAnalyzer
(`model_analyzer.py`, `analyze_article` lines 80–203 and `analyze_articles`
lines 205–237.) The article's fields feed only the prompt, so the result of
one analysis depends on the article only through the transport outcome `att`,
which is passed explicitly. The wall-clock timestamp `datetime.utcnow()` is
passed in as `now`. -/

/-- The error analysis built at `model_analyzer.py` lines 195–203 when any
exception escapes the API call. -/
def errorAnalysis (displayName modelName now msg kind : String) : Json :=
  .obj [("model", .str displayName),
        ("model_id", .str modelName),
        ("error", .str msg),
        ("error_type", .str kind),
        ("analyzed_at", .str now),
        ("summary", .str ("Analysis failed: " ++ msg)),
        ("sentiment", .str "unknown")]

/-- `token_usage` metadata attached at `model_analyzer.py` lines 177–182. -/
def usageJson (u : TokenUsage) : Json :=
  .obj [("prompt_tokens", .num u.prompt_tokens),
        ("completion_tokens", .num u.completion_tokens),
        ("total_tokens", .num u.total_tokens)]

/-- `analyze_article`: call the transport with retry; on success run the
extraction cascade and attach model identity, timestamp and token usage
(lines 171–182); on an escaping exception return the error analysis
(lines 186–203). When the parsed completion is not an object, the metadata
item assignment raises `TypeError`, caught by the same handler; the runtime's
exact `TypeError` message is abstracted here (no claim depends on it). -/
def analyzeArticle (att : Nat → Except CallErr ChatResponse)
    (displayName modelName now : String) : Json :=
  match (callWithRetry att).1 with
  | .error e => errorAnalysis displayName modelName now e.msg e.kind
  | .ok resp =>
    match extractAnalysis resp.content with
    | .obj kvs =>
      let kvs := objInsert kvs "model" (.str displayName)
      let kvs := objInsert kvs "model_id" (.str modelName)
      let kvs := objInsert kvs "analyzed_at" (.str now)
      let kvs :=
        match resp.usage with
        | some u => objInsert kvs "token_usage" (usageJson u)
        | none => kvs
      .obj kvs
    | _ =>
      errorAnalysis displayName modelName now
        "item assignment on a non-object analysis" "TypeError"

/-- Token accumulation at `model_analyzer.py` lines 223–225:
`analysis['token_usage'].get(key, 0)` summed into the running totals. -/
def addUsage (tot : Nat × Nat × Nat) (analysis : Json) : Nat × Nat × Nat :=
  match analysis.look "token_usage" with
  | some u =>
    let get' := fun (k : String) =>
      match u.look k with
      | some (.num n) => n.toNat
      | _ => 0
    (tot.1 + get' "prompt_tokens", tot.2.1 + get' "completion_tokens",
      tot.2.2 + get' "total_tokens")
  | none => tot

/-- `analyze_articles`: process the articles strictly in order, pairing each
article with its analysis and accumulating token totals; every article yields
an entry whatever the outcome of its analysis. `atts i` is the transport
outcome function for article number `i`. (The fixed 1-second pacing sleep
between articles has no effect on the data and is not modelled.) -/
def analyzeArticles (atts : Nat → Nat → Except CallErr ChatResponse)
    (displayName modelName now : String) (articles : List Json) :
    List Json × (Nat × Nat × Nat) :=
  (articles.enum).foldl
    (fun acc p =>
      let analysis := analyzeArticle (atts p.1) displayName modelName now
      (acc.1 ++ [Json.obj [("article", p.2), ("analysis", analysis)]],
        addUsage acc.2 analysis))
    ([], (0, 0, 0))

/-! ### PerspectiveSynthesizer
(`agents/news_perspectives/perspective_synthesizer.py`.) Artifact records are
kept as raw `Json` items; field access `d.get(k, default)` is modelled by
`jgetD`. Python raises on `.get` applied to a non-dict value — `jgetD`
returns the default there instead, and the theorems below assume well-formed
(object-shaped) records, which is the only case the claims concern. -/

/-- Python `d.get(k, default)` on a decoded JSON dict. -/
def jgetD (j : Json) (k : String) (d : Json) : Json :=
  match j with
  | .obj kvs => (assocFind kvs k).getD d
  | _ => d

/-- The join key of an article:
`article.get('id', article.get('title', ''))`
(`perspective_synthesizer.py` line 95). -/
def keyOf (article : Json) : Json :=
  jgetD article "id" (jgetD article "title" (.str ""))

/-- The static model→emoji table (`get_model_emoji`, lines 148–162). -/
def emojiMap : List (String × String) :=
  [("GPT-4o Mini", "🟢"), ("Llama 3.1 8B", "🔵"), ("Phi-4 Mini", "🟡"),
   ("Mistral Small", "🟣"), ("GPT-4o", "🟢"), ("Llama 3.1 405B", "🔵"),
   ("DeepSeek-V3", "🟣"), ("Grok 3", "🟠")]

/-- `emoji_map.get(model_name, '⚪')`: unknown names get the neutral marker. -/
def modelEmoji (name : String) : String := (assocFind emojiMap name).getD "⚪"

/-- One model's perspective entry for one article, the dict literal built at
`perspective_synthesizer.py` lines 103–115 (fixed keys, values from the
analysis with the defaults of the source). -/
structure Perspective where
  model : String
  model_id : Json
  emoji : String
  summary : Json
  key_points : Json
  sentiment : Json
  confidence : Json
  bias_check : Json
  missing_context : Json
  implications : Json
  analyzed_at : Json
deriving DecidableEq

/-- Build the perspective entry for `model_name` from an analysis value. -/
def mkPersp (modelName : String) (analysis : Json) : Perspective where
  model := modelName
  model_id := jgetD analysis "model_id" (.str "")
  emoji := modelEmoji modelName
  summary := jgetD analysis "summary" (.str "")
  key_points := jgetD analysis "key_points" (.arr [])
  sentiment := jgetD analysis "sentiment" (.str "unknown")
  confidence := jgetD analysis "confidence" (.str "unknown")
  bias_check := jgetD analysis "bias_check" (.str "")
  missing_context := jgetD analysis "missing_context" (.str "")
  implications := jgetD analysis "implications" (.str "")
  analyzed_at := jgetD analysis "analyzed_at" (.str "")

/-- One key's bucket in the article index: the first article seen for the key
plus the perspectives appended so far (lines 97–115). -/
structure Bucket where
  article : Json
  perspectives : List Perspective
deriving DecidableEq

/-- Add one perspective to the index: an existing key gets the entry appended
to its bucket (the stored article is the first one seen); a new key is
appended at the end with a fresh bucket. -/
def insertEntry (idx : List (Json × Bucket)) (k : Json) (article : Json)
    (p : Perspective) : List (Json × Bucket) :=
  match idx with
  | [] => [(k, ⟨article, [p]⟩)]
  | (k', b) :: rest =>
    if k' = k then (k', ⟨b.article, b.perspectives ++ [p]⟩) :: rest
    else (k', b) :: insertEntry rest k article p

/-- One loaded per-model artifact: the display name it was loaded under and
its `data.analyses` records. -/
structure ModelData where
  model : String
  analyses : List Json
deriving DecidableEq

/-- The nested loop of lines 86–115 flattened: the `(model name, record)`
pairs in processing order. -/
def pairsOf (mds : List ModelData) : List (String × Json) :=
  mds.flatMap (fun md => md.analyses.map (fun r => (md.model, r)))

/-- The join key of one record: `item.get('article', {})` then the id/title
key (lines 92–95). -/
def recKey (r : Json) : Json := keyOf (jgetD r "article" (.obj []))

/-- The key of a `(model name, record)` pair. -/
def pairKey (mr : String × Json) : Json := recKey mr.2

/-- The article of a `(model name, record)` pair. -/
def pairArticle (mr : String × Json) : Json := jgetD mr.2 "article" (.obj [])

/-- The perspective entry contributed by a `(model name, record)` pair
(`item.get('analysis', {})` fed to the entry builder). -/
def pairPersp (mr : String × Json) : Perspective :=
  mkPersp mr.1 (jgetD mr.2 "analysis" (.obj []))

/-- One iteration of the indexing loop (lines 92–115). -/
def stepIndex (idx : List (Json × Bucket)) (mr : String × Json) : List (Json × Bucket) :=
  insertEntry idx (pairKey mr) (pairArticle mr) (pairPersp mr)

/-- The article index built by lines 84–115: fold the records of every loaded
artifact, in order, into the key-bucketed index. -/
def buildIndex (mds : List ModelData) : List (Json × Bucket) :=
  (pairsOf mds).foldl stepIndex []

/-- Association lookup in the index. -/
def idxFind : List (Json × Bucket) → Json → Option Bucket
  | [], _ => none
  | (k', b) :: rest, k => if k' = k then some b else idxFind rest k

/-- The perspectives currently bucketed under a key. -/
def perspsAt (idx : List (Json × Bucket)) (k : Json) : List Perspective :=
  ((idxFind idx k).map (·.perspectives)).getD []

/-- Sentiment tallying of lines 124–126: bump the count for `s`, appending a
new key at the end on first occurrence (dict insertion order). -/
def bumpCount (counts : List (Json × Nat)) (s : Json) : List (Json × Nat) :=
  match counts with
  | [] => [(s, 1)]
  | (k, n) :: rest => if k = s then (k, n + 1) :: rest else (k, n) :: bumpCount rest s

/-- `sentiment_counts` for a sentiment list. -/
def sentimentCounts (ss : List Json) : List (Json × Nat) := ss.foldl bumpCount []

/-- Count lookup with default 0 (`sentiment_counts.get(s, 0)`). -/
def countOf (counts : List (Json × Nat)) (k : Json) : Nat :=
  match counts with
  | [] => 0
  | (k', n) :: rest => if k' = k then n else countOf rest k

/-- `max(items, key=count)` over the remaining items: replace the current
best only on a strictly greater count, so the first item reaching the maximal
count wins — Python `max` tie-breaking. -/
def maxPair : List (Json × Nat) → (Json × Nat) → (Json × Nat)
  | [], best => best
  | p :: rest, best => maxPair rest (if p.2 > best.2 then p else best)

/-- `dominant_sentiment` (line 128): the first key of maximal count, or
`'mixed'` when there are no counts. -/
def dominantOf (counts : List (Json × Nat)) : Json :=
  match counts with
  | [] => .str "mixed"
  | c :: rest => (maxPair rest c).1

/-- Python `round(x, 1)` on the exact rational value: round to the nearest
tenth, here via `⌊10 q + 1/2⌋ / 10`. (Python rounds the nearest-representable
float half-to-even; the two differ only at exact half-tenths, which no
analysed value hits.) -/
def round1 (q : ℚ) : ℚ := (⌊q * 10 + 1 / 2⌋ : ℚ) / 10

/-- The per-article consensus dict of lines 134–139. -/
structure Consensus where
  dominant_sentiment : Json
  agreement_percentage : ℚ
  sentiment_distribution : List (Json × Nat)
  models_analyzed : Nat
deriving DecidableEq

/-- Lines 122–139: the consensus computed from an article's perspectives —
sentiments excluding `'unknown'`, their counts, the dominant sentiment,
and the rounded agreement percentage (0 when no usable sentiment). -/
def articleConsensus (ps : List Perspective) : Consensus :=
  let sentiments := (ps.map (·.sentiment)).filter (fun s => s != Json.str "unknown")
  let counts := sentimentCounts sentiments
  let dom := dominantOf counts
  let agreement : ℚ :=
    if sentiments.isEmpty then 0
    else (countOf counts dom : ℚ) / (sentiments.length : ℚ) * 100
  ⟨dom, round1 agreement, counts, ps.length⟩

/-- One synthesized article: the item, its perspectives, its consensus. -/
structure SynthArticle where
  article : Json
  perspectives : List Perspective
  consensus : Consensus
deriving DecidableEq

/-- `synthesize_perspectives` (lines 73–145): build the index, attach each
bucket's consensus, and stable-sort by descending perspective count. -/
def synthesize (mds : List ModelData) : List SynthArticle :=
  let arts := (buildIndex mds).map
    (fun kb => SynthArticle.mk kb.2.article kb.2.perspectives
      (articleConsensus kb.2.perspectives))
  arts.mergeSort (fun a b => b.perspectives.length ≤ a.perspectives.length)

/-- A per-model artifact file as far as the synthesizer reads it:
`data.get('data', {}).get('analyses', [])`. -/
structure ModelFile where
  analyses : List Json
deriving DecidableEq

/-- `load_analysis` (lines 16–31): read the artifact at `path`; a missing
file (`FileNotFoundError`) — and any other load failure — yields `none` with
a warning instead of raising. The file system is modelled as a partial map
from paths to artifact contents. -/
def loadAnalysis (fs : String → Option ModelFile) (path name : String) :
    Option ModelData :=
  (fs path).map (fun f => ⟨name, f.analyses⟩)

/-- The static `(artifact path, display name)` list of `main`
(lines 175–186). -/
def staticModels : List (String × String) :=
  [("data/news_perspectives/gpt_mini_analysis.json", "GPT-4o Mini"),
   ("data/news_perspectives/llama_small_analysis.json", "Llama 3.1 8B"),
   ("data/news_perspectives/phi_analysis.json", "Phi-4 Mini"),
   ("data/news_perspectives/mistral_analysis.json", "Mistral Small"),
   ("data/news_perspectives/gpt_analysis.json", "GPT-4o"),
   ("data/news_perspectives/llama_analysis.json", "Llama 3.1 405B"),
   ("data/news_perspectives/deepseek_analysis.json", "DeepSeek-V3"),
   ("data/news_perspectives/grok_analysis.json", "Grok 3")]

/-- The part of the synthesized artifact the claims concern:
`data.articles` and `data.models`. -/
structure SynthOutput where
  articles : List SynthArticle
  models : List String
deriving DecidableEq

/-- `main` (lines 165–234) restricted to the synthesis data flow: load the
artifacts that exist, synthesize, and emit the full static model name list
alongside the per-article results. -/
def mainOutput (fs : String → Option ModelFile) : SynthOutput :=
  let loaded := staticModels.filterMap (fun pm => loadAnalysis fs pm.1 pm.2)
  ⟨synthesize loaded, staticModels.map (·.2)⟩

/-! ### ArtifactRepair

The two independent offline passes. Both operate on the decoded artifact
(`data = json.load(f)`) and write it back only when at least one record was
fixed, so the file content is determined by the returned data; serialization
is not modelled. Record processors return `Option` — `none` models a Python
exception escaping the pass (e.g. `.strip()` on a non-string `summary`);
items that are not JSON objects are likewise modelled as a failure (Python
raises `TypeError` for the common cases; the exotic string/array membership
semantics of `in` is not modelled — no artifact contains such items). -/

/-- `fix_analysis_json.extract_json_from_string` lines 14–23: drop a
`**JSON Response` preamble — skip lines until one whose strip starts with a
fence marker or an opening brace (index 0, i.e. no change, when none does). -/
def stripJsonPreamble (content : String) : String :=
  if pyStarts content "**JSON Response" then
    let lines := pyLines content
    let idx := (lines.findIdx?
      (fun l => pyStarts (pyStrip l) "```" || pyStarts (pyStrip l) "\x7b")).getD 0
    pyJoinNl (lines.drop idx)
  else content

/-- `fix_analysis_json.extract_json_from_string` lines 26–32: the fence
removal variant of this pass (same shape as `stripFences` but applied to the
already-stripped content without re-stripping). -/
def stripFencesRepair (content : String) : String :=
  if pyStarts content "```" then
    let lines := pyLines content
    let lines := if pyStarts (lines.headD "") "```" then lines.drop 1 else lines
    let lines :=
      if !lines.isEmpty && pyEq (pyStrip (lines.getLastD "")) "```" then lines.dropLast
      else lines
    pyJoinNl lines
  else content

/-- `fix_analysis_json.extract_json_from_string` (lines 9–55): strip, drop
the preamble, drop fences, brace-match, parse; `none` whenever no object can
be obtained. -/
def extractJsonFromString (content0 : String) : Option Json :=
  let content := pyStrip content0
  let content := stripJsonPreamble content
  let content := stripFencesRepair content
  match braceExtract content with
  | some js => Json.parse js
  | none => none

/-- `fix_json_fences.strip_code_fences` (lines 8–34): strip; find the first
line starting with a fence marker anywhere and start after it; find the first
strictly-fence line after that and stop before it; with no closing fence take
everything after the opening fence; with no opening fence leave the lines
unchanged. -/
def stripCodeFences (content0 : String) : String :=
  let content := pyStrip content0
  let lines := pyLines content
  let startIdx :=
    match lines.findIdx? (fun l => pyStarts (pyStrip l) "```") with
    | some i => i + 1
    | none => 0
  match (lines.drop startIdx).findIdx? (fun l => pyEq (pyStrip l) "```") with
  | some j => pyJoinNl ((lines.drop startIdx).take j)
  | none =>
    if startIdx > 0 then pyJoinNl (lines.drop startIdx)
    else pyJoinNl lines

/-- Python `len(x)` for the values it is defined on. -/
def pyLen (j : Json) : Option Nat :=
  match j with
  | .arr l => some l.length
  | .str s => some s.data.length
  | .obj kvs => some kvs.length
  | _ => none

/-- Python `x[0]` (`IndexError`/`TypeError` as `none`; indexing a string
yields its first character as a one-character string). -/
def pyIndex0 (j : Json) : Option Json :=
  match j with
  | .arr (x :: _) => some x
  | .arr [] => none
  | .str s =>
    match s.data with
    | c :: _ => some (.str (String.mk [c]))
    | [] => none
  | _ => none

/-- One record of the key_points-extraction pass
(`fix_analysis_json.fix_analysis_file`, lines 65–102). Returns the item
(fixed or untouched) and whether it was fixed; `none` models an escaping
exception. The detection signature: `summary` present and, once stripped,
starting with an opening brace or with `**JSON Response`, and `key_points`
present and non-empty. On a successful extraction with a `summary` key the
analysis is rebuilt field by field, carrying over the original metadata
(`model`, `model_id`, `analyzed_at`, and `token_usage` when present); the
log line reads `item['article']['title']`, so a fixed item must carry a
string title. -/
def fixRecordKP (item : Json) : Option (Json × Bool) :=
  match item with
  | .obj ikvs =>
    match assocFind ikvs "analysis" with
    | none => some (item, false)
    | some analysis =>
      match analysis with
      | .obj akvs =>
        match (assocFind akvs "summary").getD (.str "") with
        | .str summaryRaw =>
          let summaryStart := pyStrip summaryRaw
          if (assocFind akvs "summary").isSome
              && (pyStarts summaryStart "\x7b" || pyStarts summaryStart "**JSON Response")
              && (assocFind akvs "key_points").isSome then
            match assocFind akvs "key_points" with
            | some kp =>
              match pyLen kp with
              | none => none
              | some n =>
                if n > 0 then
                  match pyIndex0 kp with
                  | none => none
                  | some (.str rawStr) =>
                    match extractJsonFromString rawStr with
                    | some (.obj pkvs) =>
                      if !pkvs.isEmpty && (assocFind pkvs "summary").isSome then
                        let base :=
                          [("summary", (assocFind pkvs "summary").getD (.str "")),
                           ("key_points", (assocFind pkvs "key_points").getD (.arr [])),
                           ("sentiment", (assocFind pkvs "sentiment").getD (.str "neutral")),
                           ("confidence", (assocFind pkvs "confidence").getD (.str "medium")),
                           ("bias_check", (assocFind pkvs "bias_check").getD (.str "")),
                           ("missing_context", (assocFind pkvs "missing_context").getD (.str "")),
                           ("implications", (assocFind pkvs "implications").getD (.str "")),
                           ("model", (assocFind akvs "model").getD (.str "")),
                           ("model_id", (assocFind akvs "model_id").getD (.str "")),
                           ("analyzed_at", (assocFind akvs "analyzed_at").getD (.str ""))]
                        let base :=
                          match assocFind akvs "token_usage" with
                          | some tu => base ++ [("token_usage", tu)]
                          | none => base
                        match assocFind ikvs "article" with
                        | some (.obj arkvs) =>
                          match assocFind arkvs "title" with
                          | some (.str _) =>
                            some (.obj (objInsert ikvs "analysis" (.obj base)), true)
                          | _ => none
                        | _ => none
                      else some (item, false)
                    | some _ => some (item, false)
                    | none => some (item, false)
                  | some _ => none
                else some (item, false)
            | none => some (item, false)
          else some (item, false)
        | _ => none
      | _ => none
  | _ => none

/-- One record of the fence-stripping pass
(`fix_json_fences.fix_analysis_file`, lines 47–67). Detection: the stripped
`summary` starts with a fence marker, or its first 100 characters contain a
`json` fence marker. On a clean parse of the fence-stripped `key_points[0]`
the analysis is replaced wholesale by the parsed object; a parse failure is
logged and the record is left untouched. -/
def fixRecordFence (item : Json) : Option (Json × Bool) :=
  match item with
  | .obj ikvs =>
    match assocFind ikvs "analysis" with
    | none => some (item, false)
    | some analysis =>
      match analysis with
      | .obj akvs =>
        match (assocFind akvs "summary").getD (.str "") with
        | .str summaryRaw =>
          let summary := pyStrip summaryRaw
          if pyStarts summary "```" || pyContains (pyTake summary 100) "```json" then
            match assocFind akvs "key_points" with
            | some kp =>
              match pyLen kp with
              | none => none
              | some n =>
                if n > 0 then
                  match pyIndex0 kp with
                  | none => none
                  | some (.str rawStr) =>
                    match Json.parse (stripCodeFences rawStr) with
                    | some parsed => some (.obj (objInsert ikvs "analysis" parsed), true)
                    | none => some (item, false)
                  | some _ => none
                else some (item, false)
            | none => some (item, false)
          else some (item, false)
        | _ => none
      | _ => none
  | _ => none

/-- Apply a record processor to every item in order, counting the fixes. -/
def fixList (f : Json → Option (Json × Bool)) : List Json → Option (List Json × Nat)
  | [] => some ([], 0)
  | it :: rest =>
    match f it with
    | none => none
    | some (it', b) =>
      match fixList f rest with
      | none => none
      | some (rest', n) => some (it' :: rest', (if b then 1 else 0) + n)

/-- File-level shape of both passes: locate `data.analyses`, run the record
processor over the items, and rebuild the artifact with the processed list;
with zero fixes the file is not rewritten, so its content is the unchanged
input. `fix_analysis_json` indexes `data['data']['analyses']` directly
(`KeyError` — `none` — when absent); `fix_json_fences` guards with
`'data' in data and 'analyses' in data['data']` and silently does nothing
when the shape is absent. `guarded` selects between the two. -/
def fixFileWith (f : Json → Option (Json × Bool)) (guarded : Bool) (d : Json) :
    Option (Json × Nat) :=
  match d with
  | .obj kvs =>
    match assocFind kvs "data" with
    | some (.obj dkvs) =>
      match assocFind dkvs "analyses" with
      | some (.arr items) =>
        match fixList f items with
        | none => none
        | some (items', n) =>
          if n = 0 then some (d, 0)
          else some (.obj (objInsert kvs "data"
            (.obj (objInsert dkvs "analyses" (.arr items')))), n)
      | some _ => none
      | none => if guarded then some (d, 0) else none
    | some _ => none
    | none => if guarded then some (d, 0) else none
  | _ => none

/-- `fix_analysis_json.fix_analysis_file` on the decoded artifact. -/
def fixFileKP (d : Json) : Option (Json × Nat) := fixFileWith fixRecordKP false d

/-- `fix_json_fences.fix_analysis_file` on the decoded artifact. -/
def fixFileFence (d : Json) : Option (Json × Nat) := fixFileWith fixRecordFence true d

/-! ### Concrete instances used by the claims -/

/-- A perspective whose analysis carries only the given sentiment. -/
def perspSent (s : String) : Perspective := mkPersp "GPT-4o" (.obj [("sentiment", .str s)])

/-- The [positive, positive, negative] article of the spec's concrete
consensus example. -/
def threeSentiments : List Perspective :=
  [perspSent "positive", perspSent "positive", perspSent "negative"]

/-- One well-formed analysis record. -/
def sampleRecord : Json :=
  .obj [("article", .obj [("id", .str "a1"), ("title", .str "T1")]),
        ("analysis", .obj [("summary", .str "s"), ("sentiment", .str "positive")])]

/-- A file system carrying exactly one of the eight static artifacts. -/
def fsOne : String → Option ModelFile := fun path =>
  if path = "data/news_perspectives/gpt_analysis.json" then some ⟨[sampleRecord]⟩
  else none

/-- A corrupted `key_points[0]` payload whose decoded `summary` itself opens
with a brace and whose decoded `key_points[0]` is again decodable JSON with a
`summary` — the shape on which a second repair run fires again. -/
def nestedPayload : String :=
  "\x7b\"summary\": \"\x7b\x7d\", \"key_points\": [\"\x7b\\\"summary\\\": \\\"done\\\", \\\"key_points\\\": []\x7d\"]\x7d"

/-- An artifact record carrying `nestedPayload` in the broken shape. -/
def brokenItem : Json :=
  .obj [("article", .obj [("title", .str "t")]),
        ("analysis", .obj [("summary", .str "\x7b"),
          ("key_points", .arr [.str nestedPayload])])]

/-- The artifact holding the one broken record. -/
def brokenArtifact : Json := .obj [("data", .obj [("analyses", .arr [brokenItem])])]

/-- `brokenArtifact` after one run of the key_points-extraction pass. -/
def onceFixedArtifact : Json :=
  .obj [("data", .obj [("analyses", .arr [
    .obj [("article", .obj [("title", .str "t")]),
      ("analysis", .obj [
        ("summary", .str "\x7b\x7d"),
        ("key_points", .arr [.str "\x7b\"summary\": \"done\", \"key_points\": []\x7d"]),
        ("sentiment", .str "neutral"), ("confidence", .str "medium"),
        ("bias_check", .str ""), ("missing_context", .str ""),
        ("implications", .str ""), ("model", .str ""), ("model_id", .str ""),
        ("analyzed_at", .str "")])]])])]

/-- `brokenArtifact` after two runs of the key_points-extraction pass. -/
def twiceFixedArtifact : Json :=
  .obj [("data", .obj [("analyses", .arr [
    .obj [("article", .obj [("title", .str "t")]),
      ("analysis", .obj [
        ("summary", .str "done"),
        ("key_points", .arr []),
        ("sentiment", .str "neutral"), ("confidence", .str "medium"),
        ("bias_check", .str ""), ("missing_context", .str ""),
        ("implications", .str ""), ("model", .str ""), ("model_id", .str ""),
        ("analyzed_at", .str "")])]])])]

/-- A record that the key_points-extraction pass cannot change: either it has
no `analysis`, or its analysis is an object whose (string-or-absent)
`summary`, once stripped, starts with neither an opening brace nor the
`**JSON Response` preamble — the pass's detection signature fails. -/
def kpUndetected (item : Json) : Prop :=
  ∃ ikvs, item = .obj ikvs ∧
    (assocFind ikvs "analysis" = none ∨
     ∃ akvs, assocFind ikvs "analysis" = some (.obj akvs) ∧
       ∃ s, (assocFind akvs "summary").getD (.str "") = .str s ∧
         pyStarts (pyStrip s) "\x7b" = false ∧
         pyStarts (pyStrip s) "**JSON Response" = false)

/-- A record that the fence-stripping pass cannot change: no `analysis`, or
a (string-or-absent) `summary` that neither starts with a fence marker nor
contains a `json` fence marker in its first 100 characters. -/
def fenceUndetected (item : Json) : Prop :=
  ∃ ikvs, item = .obj ikvs ∧
    (assocFind ikvs "analysis" = none ∨
     ∃ akvs, assocFind ikvs "analysis" = some (.obj akvs) ∧
       ∃ s, (assocFind akvs "summary").getD (.str "") = .str s ∧
         pyStarts (pyStrip s) "```" = false ∧
         pyContains (pyTake (pyStrip s) 100) "```json" = false)

/-- A record in the fence-corrupted shape: `summary` is a fence fragment and
`key_points[0]` holds the fenced JSON. -/
def fenceItem : Json :=
  .obj [("article", .obj [("title", .str "T")]),
        ("analysis", .obj [("summary", .str "```json"),
          ("key_points", .arr [.str "```json\n\x7b\"summary\": \"ok\"\x7d\n```"]),
          ("model", .str "GPT-4o"), ("model_id", .str "openai/gpt-4o"),
          ("analyzed_at", .str "2025-01-01")])]

/-- A record in the brace-corrupted shape with metadata to preserve. -/
def kpItem : Json :=
  .obj [("article", .obj [("title", .str "T")]),
        ("analysis", .obj [("summary", .str "\x7b"),
          ("key_points", .arr [.str "\x7b\"summary\": \"clean\"\x7d"]),
          ("model", .str "GPT-4o"), ("model_id", .str "openai/gpt-4o"),
          ("analyzed_at", .str "2025-01-01"),
          ("token_usage", .obj [("total_tokens", .num 7)])])]

/-! ## Claims about the extractor (C1, C3, C4) -/

/-- **C1, counterexample.** The claim says a parsed object lacking a
`summary` key is not accepted and the extractor falls through to the
fallback. On the completion text `{"foo": 1}` the direct parse succeeds with
an object that has no `summary` key, and the extractor returns exactly that
object — which is not the fallback shape (it lacks a `summary` key, which
every fallback object has). -/
theorem C1_cex_object_without_summary :
    Json.parse (stripFences "\x7b\"foo\": 1\x7d") = some (.obj [("foo", .num 1)]) ∧
    extractAnalysis "\x7b\"foo\": 1\x7d" = .obj [("foo", .num 1)] ∧
    (extractAnalysis "\x7b\"foo\": 1\x7d").look "summary" = none ∧
    ∀ c : String, (fallbackAnalysis c).look "summary" ≠ none := by
  refine ⟨by decide, by decide, by decide, ?_⟩
  intro c
  simp [fallbackAnalysis, Json.look, assocFind]

/-- **C1, amended.** The extractor accepts the result of the direct-parse
step, and of the brace-matching recovery step, unconditionally: whatever
object (or other JSON value) the step parses is returned as the analysis,
with no check for a `summary` key; only a parse failure of both steps falls
through to the fallback path. -/
theorem C1_accepts_any_parse (t : String) :
    (∀ v, Json.parse (stripFences t) = some v → extractAnalysis t = v) ∧
    (∀ js v, Json.parse (stripFences t) = none →
      braceExtract (stripFences t) = some js → Json.parse js = some v →
      extractAnalysis t = v) := by
  constructor
  · intro v h
    simp [extractAnalysis, h]
  · intro js v h1 h2 h3
    simp [extractAnalysis, h1, h2, h3]

/-- **C1, witness** for the amended theorem at the counterexample input. -/
theorem C1_accepts_any_parse_witness :
    extractAnalysis "\x7b\"foo\": 1\x7d" = .obj [("foo", .num 1)] :=
  (C1_accepts_any_parse "\x7b\"foo\": 1\x7d").1 (.obj [("foo", .num 1)]) (by decide)

/-- **C3, counterexample.** The claim says the fallback `summary` is the
first 300 characters of the raw text, `key_points` wraps the original full
text, and `bias_check` is empty. On the raw text `"```\nhello\n```"` —
a fenced block whose body is not JSON — the extractor falls through to the
fallback built from the fence-stripped text `"hello"`: `summary` and
`key_points` hold `"hello"`, not the raw text, and `bias_check` holds the
sentinel `"Unable to parse structured response"`, not the empty string. -/
theorem C3_cex_fenced_non_json :
    extractAnalysis "```\nhello\n```" = fallbackAnalysis "hello" ∧
    (extractAnalysis "```\nhello\n```").look "summary" = some (.str "hello") ∧
    (extractAnalysis "```\nhello\n```").look "summary" ≠
      some (.str (pyTake "```\nhello\n```" 300)) ∧
    (extractAnalysis "```\nhello\n```").look "key_points" ≠
      some (.arr [.str "```\nhello\n```"]) ∧
    (extractAnalysis "```\nhello\n```").look "bias_check" ≠ some (.str "") := by
  decide

/-- **C3, amended.** When both parse attempts fail, the extractor returns the
fallback object built from the *fence-stripped* text `c`: `summary` is the
first 300 characters of `c`, `key_points` is `[c]`, `sentiment` is
`"neutral"`, `confidence` is `"medium"`, `bias_check` is the sentinel
`"Unable to parse structured response"`, and `missing_context` and
`implications` are empty. -/
theorem C3_fallback_shape (t : String)
    (h1 : Json.parse (stripFences t) = none)
    (h2 : ∀ js, braceExtract (stripFences t) = some js → Json.parse js = none) :
    extractAnalysis t =
      .obj [("summary", .str (pyTake (stripFences t) 300)),
            ("key_points", .arr [.str (stripFences t)]),
            ("sentiment", .str "neutral"),
            ("confidence", .str "medium"),
            ("bias_check", .str "Unable to parse structured response"),
            ("missing_context", .str ""),
            ("implications", .str "")] := by
  have : extractAnalysis t = fallbackAnalysis (stripFences t) := by
    simp only [extractAnalysis, h1]
    match hbe : braceExtract (stripFences t) with
    | some js => simp [h2 js hbe]
    | none => simp
  rw [this]
  rfl

/-- **C3, witness** for the amended theorem at the counterexample input. -/
theorem C3_fallback_shape_witness :
    extractAnalysis "```\nhello\n```" =
      .obj [("summary", .str (pyTake (stripFences "```\nhello\n```") 300)),
            ("key_points", .arr [.str (stripFences "```\nhello\n```")]),
            ("sentiment", .str "neutral"),
            ("confidence", .str "medium"),
            ("bias_check", .str "Unable to parse structured response"),
            ("missing_context", .str ""),
            ("implications", .str "")] :=
  C3_fallback_shape "```\nhello\n```" (by decide)
    (by
      intro js h
      have hbe : braceExtract (stripFences "```\nhello\n```") = none := by decide
      rw [hbe] at h
      cases h)

/-- **C4, counterexample.** The claim says that with an opening fence but no
closing fence the text is left as-is for parsing. On
`"```json\n{\"a\": 1}"` the code nevertheless removes the opening fence
line, producing `"{\"a\": 1}"` ≠ the original text. -/
theorem C4_cex_unclosed_fence :
    stripFences "```json\n\x7b\"a\": 1\x7d" = "\x7b\"a\": 1\x7d" ∧
    stripFences "```json\n\x7b\"a\": 1\x7d" ≠ "```json\n\x7b\"a\": 1\x7d" := by
  decide

/-- With a non-empty prefix free of newlines, the first line of a string
starting with that prefix also starts with it. -/
theorem startsSeg_headSplit (pat : List Char) (hpat : '\n' ∉ pat) :
    ∀ cs : List Char, startsSeg pat cs = true →
      startsSeg pat ((splitNl cs).headD []) = true := by
  induction pat with
  | nil => intro cs _; rfl
  | cons p ps ih =>
    intro cs h
    match cs with
    | [] => exact absurd h (by simp [startsSeg])
    | c :: cs' =>
      simp only [startsSeg, Bool.and_eq_true, decide_eq_true_eq] at h
      obtain ⟨rfl, h2⟩ := h
      have hc : ¬ p = '\n' := fun heq => hpat (heq ▸ List.mem_cons_self p ps)
      have hrest := ih (fun hm => hpat (List.mem_cons_of_mem p hm)) cs' h2
      simp only [splitNl]
      rw [if_neg hc]
      match hs : splitNl cs' with
      | line :: rest' =>
        rw [hs] at hrest
        simp only [List.headD_cons] at hrest ⊢
        simp [startsSeg, hrest]
      | [] =>
        rw [hs] at hrest
        simp only [List.headD_nil] at hrest
        simp [startsSeg, hrest]

/-- The first line of a string starting with a fence marker also starts with
a fence marker. -/
theorem pyLines_head_fence (s : String) (h : pyStarts s "```" = true) :
    pyStarts ((pyLines s).headD "") "```" = true := by
  have h2 := startsSeg_headSplit "```".data (by decide) s.data h
  unfold pyLines
  match hs : splitNl s.data with
  | line :: rest =>
    rw [hs] at h2
    simpa [pyStarts] using h2
  | [] =>
    rw [hs] at h2
    exact absurd h2 (by decide)

/-- **C4, amended.** Fence stripping behaves as follows on the stripped text:
if it does not start with a fence marker the input is returned unchanged; if
it does, the first line is always removed, and the last of the remaining
lines is removed exactly when it is a fence marker after stripping — in
particular, an opening fence with no closing fence still loses its opening
line. -/
theorem C4_fence_stripping (t : String) :
    (pyStarts (pyStrip t) "```" = false → stripFences t = t) ∧
    (pyStarts (pyStrip t) "```" = true →
      (!((pyLines (pyStrip t)).drop 1).isEmpty &&
          pyEq (pyStrip (((pyLines (pyStrip t)).drop 1).getLastD "")) "```") = false →
      stripFences t = pyJoinNl ((pyLines (pyStrip t)).drop 1)) ∧
    (pyStarts (pyStrip t) "```" = true →
      (!((pyLines (pyStrip t)).drop 1).isEmpty &&
          pyEq (pyStrip (((pyLines (pyStrip t)).drop 1).getLastD "")) "```") = true →
      stripFences t = pyJoinNl (((pyLines (pyStrip t)).drop 1).dropLast)) := by
  refine ⟨?_, ?_, ?_⟩
  · intro h
    simp [stripFences, h]
  · intro h hlast
    have hh := pyLines_head_fence (pyStrip t) h
    simp only [stripFences]
    split_ifs with h1
    · rw [hlast] at h1
      exact Bool.noConfusion h1
    · rfl
  · intro h hlast
    have hh := pyLines_head_fence (pyStrip t) h
    simp only [stripFences]
    split_ifs
    rfl

/-- **C4, witness** for the amended theorem: the unclosed-fence input loses
exactly its opening line. -/
theorem C4_fence_stripping_witness :
    stripFences "```json\n\x7b\"a\": 1\x7d" =
      pyJoinNl ((pyLines (pyStrip "```json\n\x7b\"a\": 1\x7d")).drop 1) :=
  (C4_fence_stripping "```json\n\x7b\"a\": 1\x7d").2.1 (by decide) (by decide)

/-! ## Claim about the retry policy (C2) -/

/-- **C2, counterexample.** The claim says worst-case total sleep before the
rate-limit failure propagates is 2+4+8 = 14 seconds. With every attempt
rate-limited the code sleeps 2 s and 4 s only — there is no sleep after the
final attempt — for a total of 6 ≠ 14 seconds. -/
theorem C2_cex_total_sleep_six :
    callWithRetry (fun _ => .error (.rateLimit "rate limited")) =
      (.error (.rateLimit "rate limited"), 6) ∧ (6 : Nat) ≠ 14 := by
  decide

/-- **C2, amended.** Up to 3 attempts; a rate-limited attempt `i` with a
retry left sleeps `2 * 2 ^ i` seconds (2 s then 4 s); the final attempt
re-raises without sleeping, so the total sleep is at most 2+4 = 6 seconds —
exactly 6 when every attempt is rate-limited; any non-rate-limit failure
propagates immediately with no sleep and no retry. -/
theorem C2_retry_policy (att : Nat → Except CallErr ChatResponse) :
    (callWithRetry att).2 ≤ 6 ∧
    (∀ m, (∀ i, i < 3 → att i = .error (.rateLimit m)) →
      callWithRetry att = (.error (.rateLimit m), 6)) ∧
    (∀ m k, att 0 = .error (.other m k) →
      callWithRetry att = (.error (.other m k), 0)) ∧
    (∀ r, att 0 = .ok r → callWithRetry att = (.ok r, 0)) := by
  refine ⟨?_, ?_, ?_, ?_⟩
  · show (retryFrom att 0 3).2 ≤ 6
    simp only [retryFrom]
    match att 0 with
    | .ok _ => simp
    | .error (.other _ _) => simp
    | .error (.rateLimit _) =>
      simp only [retryFrom]
      match att 1 with
      | .ok _ => simp
      | .error (.other _ _) => simp
      | .error (.rateLimit _) =>
        simp only [retryFrom]
        match att 2 with
        | .ok _ => simp
        | .error (.other _ _) => simp
        | .error (.rateLimit _) => simp
  · intro m hall
    show retryFrom att 0 3 = (.error (.rateLimit m), 6)
    simp only [retryFrom, hall 0 (by norm_num), hall 1 (by norm_num),
      hall 2 (by norm_num)]
    rfl
  · intro m k h
    show retryFrom att 0 3 = (.error (.other m k), 0)
    simp [retryFrom, h]
  · intro r h
    show retryFrom att 0 3 = (.ok r, 0)
    simp [retryFrom, h]

/-- **C2, witness** for the amended theorem with every attempt
rate-limited. -/
theorem C2_retry_policy_witness :
    callWithRetry (fun _ => .error (.rateLimit "r")) = (.error (.rateLimit "r"), 6) :=
  (C2_retry_policy (fun _ => .error (.rateLimit "r"))).2.1 "r" (fun _ _ => rfl)

/-! ## Claims about the per-article consensus (C5, C6) -/

/-- `maxPair` dominates its seed and every listed count. -/
theorem maxPair_ge : ∀ (l : List (Json × Nat)) (best : Json × Nat),
    best.2 ≤ (maxPair l best).2 ∧ ∀ p ∈ l, p.2 ≤ (maxPair l best).2 := by
  intro l
  induction l with
  | nil => exact fun best => ⟨le_refl _, by simp⟩
  | cons p rest ih =>
    intro best
    simp only [maxPair]
    constructor
    · refine le_trans ?_ (ih (if p.2 > best.2 then p else best)).1
      split_ifs with hgt
      · exact le_of_lt hgt
      · exact le_refl _
    · intro q hq
      rcases List.mem_cons.mp hq with rfl | hq'
      · refine le_trans ?_ (ih (if q.2 > best.2 then q else best)).1
        split_ifs with hgt
        · exact le_refl _
        · exact le_of_not_lt hgt
      · exact (ih _).2 q hq'

/-- `maxPair` returns its seed or a listed pair. -/
theorem maxPair_mem : ∀ (l : List (Json × Nat)) (best : Json × Nat),
    maxPair l best = best ∨ maxPair l best ∈ l := by
  intro l
  induction l with
  | nil => exact fun best => Or.inl rfl
  | cons p rest ih =>
    intro best
    simp only [maxPair]
    rcases ih (if p.2 > best.2 then p else best) with h | h
    · rw [h]
      split_ifs with hgt
      · exact Or.inr (List.mem_cons_self _ _)
      · exact Or.inl rfl
    · exact Or.inr (List.mem_cons_of_mem _ h)

/-- With pairwise-distinct keys, `countOf` recovers a listed pair's count. -/
theorem countOf_eq_of_mem : ∀ (l : List (Json × Nat)),
    (l.map Prod.fst).Nodup → ∀ k n, (k, n) ∈ l → countOf l k = n := by
  intro l
  induction l with
  | nil => intro _ k n h; cases h
  | cons p rest ih =>
    intro hnd k n hmem
    simp only [List.map_cons, List.nodup_cons] at hnd
    rcases List.mem_cons.mp hmem with heq | hmem'
    · rw [← heq]
      simp [countOf]
    · have hk : p.1 ≠ k := by
        intro hk
        exact hnd.1 (hk ▸ (List.mem_map.mpr ⟨(k, n), hmem', rfl⟩))
      simp only [countOf, if_neg hk]
      exact ih hnd.2 k n hmem'

/-- `countOf` is zero or the count of a listed pair. -/
theorem countOf_cases : ∀ (l : List (Json × Nat)) (k : Json),
    countOf l k = 0 ∨ (k, countOf l k) ∈ l := by
  intro l
  induction l with
  | nil => intro k; exact Or.inl rfl
  | cons p rest ih =>
    intro k
    by_cases hk : p.1 = k
    · right
      simp only [countOf, if_pos hk]
      rw [← hk]
      exact List.mem_cons_self _ _
    · simp only [countOf, if_neg hk]
      rcases ih k with h | h
      · exact Or.inl h
      · exact Or.inr (List.mem_cons_of_mem _ h)

/-- `bumpCount` keeps the key list, or appends the new key at the end. -/
theorem bumpCount_keys : ∀ (l : List (Json × Nat)) (s : Json),
    (bumpCount l s).map Prod.fst = l.map Prod.fst ∨
      (bumpCount l s).map Prod.fst = l.map Prod.fst ++ [s] := by
  intro l
  induction l with
  | nil => intro s; exact Or.inr rfl
  | cons p rest ih =>
    intro s
    by_cases hk : p.1 = s
    · left
      simp [bumpCount, hk]
    · simp only [bumpCount, if_neg hk, List.map_cons]
      rcases ih s with h | h
      · exact Or.inl (by rw [h])
      · exact Or.inr (by rw [h]; rfl)

/-- `bumpCount` never removes a key. -/
theorem bumpCount_keys_sub : ∀ (l : List (Json × Nat)) (s k : Json),
    k ∈ l.map Prod.fst → k ∈ (bumpCount l s).map Prod.fst := by
  intro l s k h
  rcases bumpCount_keys l s with he | he <;> rw [he]
  · exact h
  · exact List.mem_append_left _ h

/-- `bumpCount` only adds the bumped key. -/
theorem bumpCount_keys_super : ∀ (l : List (Json × Nat)) (s k : Json),
    k ∈ (bumpCount l s).map Prod.fst → k ∈ l.map Prod.fst ∨ k = s := by
  intro l s k h
  rcases bumpCount_keys l s with he | he <;> rw [he] at h
  · exact Or.inl h
  · rcases List.mem_append.mp h with h' | h'
    · exact Or.inl h'
    · exact Or.inr (List.mem_singleton.mp h')

/-- `bumpCount` preserves distinctness of the keys. -/
theorem bumpCount_nodup (l : List (Json × Nat)) (s : Json)
    (h : (l.map Prod.fst).Nodup) : ((bumpCount l s).map Prod.fst).Nodup := by
  induction l with
  | nil => simp [bumpCount]
  | cons p rest ih =>
    simp only [List.map_cons, List.nodup_cons] at h
    by_cases hk : p.1 = s
    · simp only [bumpCount, if_pos hk, List.map_cons, List.nodup_cons]
      exact ⟨h.1, h.2⟩
    · simp only [bumpCount, if_neg hk, List.map_cons, List.nodup_cons]
      refine ⟨?_, ih h.2⟩
      intro hmem
      rcases bumpCount_keys_super rest s p.1 hmem with h' | h'
      · exact h.1 h'
      · exact hk h'

/-- The sentiment tally has pairwise-distinct keys. -/
theorem sentimentCounts_nodup (ss : List Json) :
    ((sentimentCounts ss).map Prod.fst).Nodup := by
  suffices h : ∀ (ss : List Json) (l : List (Json × Nat)),
      (l.map Prod.fst).Nodup → ((ss.foldl bumpCount l).map Prod.fst).Nodup from
    h ss [] (by simp)
  intro ss
  induction ss with
  | nil => intro l h; exact h
  | cons s rest ih => intro l h; exact ih (bumpCount l s) (bumpCount_nodup l s h)

/-- The dominant sentiment's count is maximal among all counts. -/
theorem countOf_le_dominant (ss : List Json) (s : Json) :
    countOf (sentimentCounts ss) s ≤
      countOf (sentimentCounts ss) (dominantOf (sentimentCounts ss)) := by
  have hnd := sentimentCounts_nodup ss
  match hc : sentimentCounts ss with
  | [] => simp [countOf, dominantOf]
  | c :: rest =>
    rw [hc] at hnd
    have hmax := maxPair_ge rest c
    have hdom : countOf (c :: rest) (dominantOf (c :: rest)) = (maxPair rest c).2 := by
      have hm : maxPair rest c ∈ c :: rest := by
        rcases maxPair_mem rest c with h | h
        · rw [h]; exact List.mem_cons_self _ _
        · exact List.mem_cons_of_mem _ h
      have hcm := countOf_eq_of_mem _ hnd (maxPair rest c).1 (maxPair rest c).2
        (by simpa using hm)
      simpa [dominantOf] using hcm
    rw [hdom]
    rcases countOf_cases (c :: rest) s with h | h
    · rw [h]; exact Nat.zero_le _
    · rcases List.mem_cons.mp h with heq | hmem
      · have hs2 : countOf (c :: rest) s = c.2 := congrArg Prod.snd heq
        rw [hs2]; exact hmax.1
      · exact hmax.2 _ hmem

/-- Componentwise equality of consensus values. -/
theorem Consensus.ext' (a b : Consensus)
    (h1 : a.dominant_sentiment = b.dominant_sentiment)
    (h2 : a.agreement_percentage = b.agreement_percentage)
    (h3 : a.sentiment_distribution = b.sentiment_distribution)
    (h4 : a.models_analyzed = b.models_analyzed) : a = b := by
  cases a; cases b; simp_all

/-- **C5.** The per-article consensus counts the sentiments excluding
`"unknown"`; the dominant sentiment's count is maximal among all counts; the
agreement percentage is the dominant count over the number of non-unknown
sentiments times 100, rounded to one decimal; and on the concrete article
with sentiments [positive, positive, negative] the dominant sentiment is
`"positive"` with agreement exactly 66.7. -/
theorem C5_article_consensus (ps : List Perspective)
    (h : ((ps.map (·.sentiment)).filter (fun s => s != Json.str "unknown")) ≠ []) :
    (∀ s ∈ (ps.map (·.sentiment)).filter (fun s => s != Json.str "unknown"),
        s ≠ .str "unknown") ∧
    (articleConsensus ps).sentiment_distribution =
      sentimentCounts ((ps.map (·.sentiment)).filter (fun s => s != Json.str "unknown")) ∧
    (∀ s, countOf (articleConsensus ps).sentiment_distribution s ≤
      countOf (articleConsensus ps).sentiment_distribution
        (articleConsensus ps).dominant_sentiment) ∧
    (articleConsensus ps).agreement_percentage =
      round1 ((countOf (articleConsensus ps).sentiment_distribution
          (articleConsensus ps).dominant_sentiment : ℚ) /
        ((((ps.map (·.sentiment)).filter (fun s => s != Json.str "unknown")).length : ℚ))
        * 100) ∧
    articleConsensus threeSentiments =
      ⟨.str "positive", 667 / 10, [(.str "positive", 2), (.str "negative", 1)], 3⟩ := by
  have hne : ((ps.map (·.sentiment)).filter (fun s => s != Json.str "unknown")).isEmpty
      = false := by
    cases he : (ps.map (·.sentiment)).filter (fun s => s != Json.str "unknown") with
    | nil => exact absurd he h
    | cons a l => rfl
  refine ⟨?_, rfl, ?_, ?_, ?_⟩
  · intro s hs
    have := List.of_mem_filter hs
    simpa using this
  · intro s
    exact countOf_le_dominant _ s
  · show round1 _ = _
    rw [hne]
    simp only [Bool.false_eq_true, if_false]
    rfl
  · refine Consensus.ext' _ _ ?_ ?_ ?_ ?_
    · decide
    · show round1 _ = _
      have hsents : (threeSentiments.map (·.sentiment)).filter
          (fun s => s != Json.str "unknown") =
          [Json.str "positive", Json.str "positive", Json.str "negative"] := by decide
      rw [hsents]
      rw [show sentimentCounts [Json.str "positive", Json.str "positive", Json.str "negative"]
        = [(Json.str "positive", 2), (Json.str "negative", 1)] from by decide]
      rw [show dominantOf [(Json.str "positive", 2), (Json.str "negative", 1)]
        = Json.str "positive" from by decide]
      rw [show countOf [(Json.str "positive", 2), (Json.str "negative", 1)]
        (Json.str "positive") = 2 from by decide]
      norm_num [round1]
    · decide
    · decide

/-- **C5, witness** at the concrete three-sentiment article. -/
theorem C5_article_consensus_witness :
    articleConsensus threeSentiments =
      ⟨.str "positive", 667 / 10, [(.str "positive", 2), (.str "negative", 1)], 3⟩ :=
  (C5_article_consensus threeSentiments (by decide)).2.2.2.2

/-- **C6.** An article none of whose perspectives carries a usable (non-
`"unknown"`) sentiment gets agreement percentage exactly 0 and the fallback
dominant sentiment `"mixed"`. -/
theorem C6_no_usable_sentiment (ps : List Perspective)
    (h : ((ps.map (·.sentiment)).filter (fun s => s != Json.str "unknown")) = []) :
    (articleConsensus ps).agreement_percentage = 0 ∧
    (articleConsensus ps).dominant_sentiment = .str "mixed" := by
  constructor
  · show round1 _ = 0
    rw [h]
    norm_num [round1, sentimentCounts]
  · show dominantOf _ = _
    rw [h]
    rfl

/-- **C6, witness** at an article whose only perspective has sentiment
`"unknown"`. -/
theorem C6_no_usable_sentiment_witness :
    (articleConsensus [perspSent "unknown"]).agreement_percentage = 0 ∧
    (articleConsensus [perspSent "unknown"]).dominant_sentiment = .str "mixed" :=
  C6_no_usable_sentiment [perspSent "unknown"] (by decide)

/-! ## Claim about synthesis from partial artifacts (C7) -/

/-- Inserting under key `k` leaves every other key's bucket unchanged. -/
theorem idxFind_insert_ne : ∀ (idx : List (Json × Bucket)) (k a : Json)
    (p : Perspective) (k' : Json), k' ≠ k →
    idxFind (insertEntry idx k a p) k' = idxFind idx k' := by
  intro idx
  induction idx with
  | nil =>
    intro k a p k' hne
    simp only [insertEntry, idxFind]
    rw [if_neg (fun h => hne h.symm)]
  | cons kb rest ih =>
    intro k a p k' hne
    by_cases hk : kb.1 = k
    · simp only [insertEntry]
      rw [if_pos hk]
      simp only [idxFind]
      have hnk : ¬ kb.1 = k' := fun h => hne (h.symm.trans hk)
      rw [if_neg hnk, if_neg hnk]
    · simp only [insertEntry]
      rw [if_neg hk]
      simp only [idxFind]
      by_cases hk' : kb.1 = k'
      · rw [if_pos hk', if_pos hk']
      · rw [if_neg hk', if_neg hk', ih k a p k' hne]

/-- Inserting under key `k` appends the entry to that key's bucket (creating
it when absent). -/
theorem idxFind_insert_self : ∀ (idx : List (Json × Bucket)) (k a : Json)
    (p : Perspective),
    idxFind (insertEntry idx k a p) k =
      some (match idxFind idx k with
        | some b => ⟨b.article, b.perspectives ++ [p]⟩
        | none => ⟨a, [p]⟩) := by
  intro idx
  induction idx with
  | nil => intro k a p; simp [insertEntry, idxFind]
  | cons kb rest ih =>
    intro k a p
    by_cases hk : kb.1 = k
    · simp only [insertEntry]
      rw [if_pos hk]
      simp only [idxFind]
      rw [if_pos hk, if_pos hk]
    · simp only [insertEntry]
      rw [if_neg hk]
      simp only [idxFind]
      rw [if_neg hk, if_neg hk, ih k a p]

/-- Folding records into the index appends, at every key, exactly the
entries of the matching records, in processing order. -/
theorem perspsAt_foldl : ∀ (ps : List (String × Json)) (idx : List (Json × Bucket))
    (k : Json),
    perspsAt (ps.foldl stepIndex idx) k =
      perspsAt idx k ++ (ps.filter (fun mr => pairKey mr = k)).map pairPersp := by
  intro ps
  induction ps with
  | nil => intro idx k; simp
  | cons mr rest ih =>
    intro idx k
    simp only [List.foldl_cons, List.filter_cons]
    by_cases hk : pairKey mr = k
    · rw [if_pos (by simpa using hk)]
      rw [ih]
      have hstep : perspsAt (stepIndex idx mr) k = perspsAt idx k ++ [pairPersp mr] := by
        unfold stepIndex perspsAt
        rw [hk, idxFind_insert_self]
        match idxFind idx k with
        | some b => simp
        | none => simp
      rw [hstep, List.map_cons, List.append_assoc]
      rfl
    · rw [if_neg (by simpa using hk)]
      rw [ih]
      have hstep : perspsAt (stepIndex idx mr) k = perspsAt idx k := by
        unfold stepIndex perspsAt
        rw [idxFind_insert_ne _ _ _ _ _ (fun h => hk h.symm)]
      rw [hstep]

/-- Inserting keeps the key list or appends the new key at the end. -/
theorem insertEntry_keys : ∀ (idx : List (Json × Bucket)) (k a : Json)
    (p : Perspective),
    (insertEntry idx k a p).map Prod.fst = idx.map Prod.fst ∨
      (insertEntry idx k a p).map Prod.fst = idx.map Prod.fst ++ [k] := by
  intro idx
  induction idx with
  | nil => intro k a p; exact Or.inr rfl
  | cons kb rest ih =>
    intro k a p
    by_cases hk : kb.1 = k
    · left
      simp only [insertEntry]
      rw [if_pos hk]
      rfl
    · simp only [insertEntry]
      rw [if_neg hk]
      simp only [List.map_cons]
      rcases ih k a p with h | h
      · exact Or.inl (by rw [h])
      · exact Or.inr (by rw [h]; rfl)

/-- Inserting only ever adds the inserted key. -/
theorem insertEntry_keys_super (idx : List (Json × Bucket)) (k a : Json)
    (p : Perspective) (k' : Json) (h : k' ∈ (insertEntry idx k a p).map Prod.fst) :
    k' ∈ idx.map Prod.fst ∨ k' = k := by
  rcases insertEntry_keys idx k a p with he | he <;> rw [he] at h
  · exact Or.inl h
  · rcases List.mem_append.mp h with h' | h'
    · exact Or.inl h'
    · exact Or.inr (List.mem_singleton.mp h')

/-- Inserting preserves distinctness of the keys. -/
theorem insertEntry_nodup (idx : List (Json × Bucket)) (k a : Json)
    (p : Perspective) (h : (idx.map Prod.fst).Nodup) :
    ((insertEntry idx k a p).map Prod.fst).Nodup := by
  induction idx with
  | nil => simp [insertEntry]
  | cons kb rest ih =>
    simp only [List.map_cons, List.nodup_cons] at h
    by_cases hk : kb.1 = k
    · simp only [insertEntry]
      rw [if_pos hk]
      simp only [List.map_cons, List.nodup_cons]
      exact ⟨h.1, h.2⟩
    · simp only [insertEntry]
      rw [if_neg hk]
      simp only [List.map_cons, List.nodup_cons]
      refine ⟨?_, ih h.2⟩
      intro hmem
      rcases insertEntry_keys_super rest k a p kb.1 hmem with h' | h'
      · exact h.1 h'
      · exact hk h'

/-- The index never holds two buckets for one key. -/
theorem buildIndex_keys_nodup (mds : List ModelData) :
    ((buildIndex mds).map Prod.fst).Nodup := by
  suffices h : ∀ (ps : List (String × Json)) (idx : List (Json × Bucket)),
      (idx.map Prod.fst).Nodup → ((ps.foldl stepIndex idx).map Prod.fst).Nodup from
    h (pairsOf mds) [] (by simp)
  intro ps
  induction ps with
  | nil => intro idx h; exact h
  | cons mr rest ih =>
    intro idx h
    exact ih (stepIndex idx mr) (insertEntry_nodup idx _ _ _ h)

/-- With distinct keys, association membership determines the lookup. -/
theorem idxFind_eq_of_mem : ∀ (idx : List (Json × Bucket)),
    (idx.map Prod.fst).Nodup → ∀ k b, (k, b) ∈ idx → idxFind idx k = some b := by
  intro idx
  induction idx with
  | nil => intro _ k b h; cases h
  | cons kb rest ih =>
    intro hnd k b hmem
    simp only [List.map_cons, List.nodup_cons] at hnd
    rcases List.mem_cons.mp hmem with heq | hmem'
    · rw [← heq]
      simp [idxFind]
    · have hk : kb.1 ≠ k := by
        intro hk
        exact hnd.1 (hk ▸ (List.mem_map.mpr ⟨(k, b), hmem', rfl⟩))
      simp only [idxFind, if_neg hk]
      exact ih hnd.2 k b hmem'

/-- Every bucket of the built index holds exactly the entries of the records
matching its key, in processing order. -/
theorem bucket_persps_eq (mds : List ModelData) (k : Json) (b : Bucket)
    (hmem : (k, b) ∈ buildIndex mds) :
    b.perspectives = ((pairsOf mds).filter (fun mr => pairKey mr = k)).map pairPersp := by
  have hfind : idxFind (buildIndex mds) k = some b :=
    idxFind_eq_of_mem _ (buildIndex_keys_nodup mds) k b hmem
  have h := perspsAt_foldl (pairsOf mds) [] k
  rw [show (pairsOf mds).foldl stepIndex [] = buildIndex mds from rfl] at h
  have hb : perspsAt (buildIndex mds) k = b.perspectives := by
    unfold perspsAt
    rw [hfind]
    rfl
  rw [hb] at h
  simpa [perspsAt, idxFind] using h

/-- A pair of the flattened record list comes from one of the loaded
artifacts, tagged with that artifact's model name. -/
theorem mem_pairsOf (mds : List ModelData) (mr : String × Json)
    (h : mr ∈ pairsOf mds) : ∃ md ∈ mds, mr.1 = md.model ∧ mr.2 ∈ md.analyses := by
  unfold pairsOf at h
  rcases List.mem_flatMap.mp h with ⟨md, hmd, hmr⟩
  rcases List.mem_map.mp hmr with ⟨r, hr, hrm⟩
  exact ⟨md, hmd, by rw [← hrm], by rw [← hrm]; exact hr⟩

/-- The model names of a key's entries, artifact by artifact: each loaded
artifact contributes its name once per matching record. -/
theorem filtered_models_eq (mds : List ModelData) (k : Json) :
    (((pairsOf mds).filter (fun mr => pairKey mr = k)).map pairPersp).map (·.model) =
      mds.flatMap (fun md =>
        (md.analyses.filter (fun r => recKey r = k)).map (fun _ => md.model)) := by
  induction mds with
  | nil => rfl
  | cons md rest ih =>
    show ((((md.analyses.map (fun r => (md.model, r))) ++ pairsOf rest).filter
        (fun mr => pairKey mr = k)).map pairPersp).map (·.model) = _
    rw [List.flatMap_cons, List.filter_append, List.map_append, List.map_append, ih]
    congr 1
    rw [List.filter_map, List.map_map, List.map_map]
    rfl

/-- A list of at most one element has no duplicates. -/
theorem nodup_of_length_le_one {α : Type} (l : List α) (h : l.length ≤ 1) : l.Nodup := by
  match l with
  | [] => exact List.nodup_nil
  | [a] => exact List.nodup_singleton a
  | a :: b :: rest => simp at h

/-- A list with distinct images has at most one element of each image. -/
theorem filter_length_le_one {α : Type} (l : List α) (f : α → Json)
    (h : (l.map f).Nodup) (k : Json) :
    (l.filter (fun r => f r = k)).length ≤ 1 := by
  induction l with
  | nil => simp
  | cons r rest ih =>
    simp only [List.map_cons, List.nodup_cons] at h
    by_cases hk : f r = k
    · have hempty : rest.filter (fun r => f r = k) = [] := by
        rw [List.filter_eq_nil_iff]
        intro r' hr' hfr'
        exact h.1 (by
          rw [show f r = f r' from by rw [hk, ← (by simpa using hfr' : f r' = k)]]
          exact List.mem_map.mpr ⟨r', hr', rfl⟩)
      rw [List.filter_cons, if_pos (by simpa using hk), hempty]
      exact le_refl _
    · rw [List.filter_cons, if_neg (by simpa using hk)]
      exact ih h.2

/-- Distinct artifact names and at-most-one matching record per artifact
give distinct model names for a key's bucket. -/
theorem nodup_flatMap_models (k : Json) : ∀ (mds : List ModelData),
    ((mds.map (·.model)).Nodup) →
    (∀ md ∈ mds, (md.analyses.filter (fun r => recKey r = k)).length ≤ 1) →
    (mds.flatMap (fun md =>
      (md.analyses.filter (fun r => recKey r = k)).map (fun _ => md.model))).Nodup := by
  intro mds
  induction mds with
  | nil => intro _ _; exact List.nodup_nil
  | cons md rest ih =>
    intro hnames hcnt
    simp only [List.map_cons, List.nodup_cons] at hnames
    simp only [List.flatMap_cons]
    refine List.Nodup.append ?_ (ih hnames.2 (fun md' h => hcnt md' (List.mem_cons_of_mem _ h))) ?_
    · refine nodup_of_length_le_one _ ?_
      rw [List.length_map]
      exact hcnt md (List.mem_cons_self _ _)
    · intro x hx hy
      have hxm : x = md.model := by
        rcases List.mem_map.mp hx with ⟨_, _, h⟩
        exact h.symm
      have hym : x ∈ rest.map (·.model) := by
        rcases List.mem_flatMap.mp hy with ⟨md', hmd', hx'⟩
        rcases List.mem_map.mp hx' with ⟨_, _, h⟩
        exact List.mem_map.mpr ⟨md', hmd', h⟩
      exact hnames.1 (hxm ▸ hym)

/-- The names of the loaded artifacts are the names of the static entries
whose files exist. -/
theorem loaded_models_eq (fs : String → Option ModelFile) : ∀ (l : List (String × String)),
    ((l.filterMap (fun pm => loadAnalysis fs pm.1 pm.2)).map (·.model)) =
      (l.filter (fun pm => (fs pm.1).isSome)).map (·.2) := by
  intro l
  induction l with
  | nil => rfl
  | cons pm rest ih =>
    match hfs : fs pm.1 with
    | some f =>
      have h1 : loadAnalysis fs pm.1 pm.2 = some ⟨pm.2, f.analyses⟩ := by
        unfold loadAnalysis; rw [hfs]; rfl
      have h2 : (fs pm.1).isSome = true := by rw [hfs]; rfl
      simp [List.filterMap_cons, List.filter_cons, h1, h2, ih]
    | none =>
      have h1 : loadAnalysis fs pm.1 pm.2 = none := by
        unfold loadAnalysis; rw [hfs]; rfl
      have h2 : (fs pm.1).isSome = false := by rw [hfs]; rfl
      simp [List.filterMap_cons, List.filter_cons, h1, h2, ih]

/-- **C7.** For any file system (in particular any strict subset of the
static artifacts present): synthesis is a total function of the files found
— a missing file is skipped, never an error; the output's model list is the
full static display-name list, missing artifacts included; the loaded names
are a sublist of that full list; and every synthesized article has
`models_analyzed` equal to its number of perspective entries, every entry
tagged with a loaded artifact's name, and (when each loaded artifact has
at most one record per join key) pairwise-distinct contributing models, so
the count equals the number of contributing models. -/
theorem C7_partial_artifacts (fs : String → Option ModelFile)
    (hwf : ∀ md ∈ staticModels.filterMap (fun pm => loadAnalysis fs pm.1 pm.2),
      (md.analyses.map recKey).Nodup) :
    (mainOutput fs).models = ["GPT-4o Mini", "Llama 3.1 8B", "Phi-4 Mini",
      "Mistral Small", "GPT-4o", "Llama 3.1 405B", "DeepSeek-V3", "Grok 3"] ∧
    ((staticModels.filterMap (fun pm => loadAnalysis fs pm.1 pm.2)).map
      (·.model)).Sublist (mainOutput fs).models ∧
    ∀ a ∈ (mainOutput fs).articles,
      a.consensus.models_analyzed = a.perspectives.length ∧
      (∀ p ∈ a.perspectives,
        ∃ md ∈ staticModels.filterMap (fun pm => loadAnalysis fs pm.1 pm.2),
          p.model = md.model) ∧
      (a.perspectives.map (·.model)).Nodup := by
  set loaded := staticModels.filterMap (fun pm => loadAnalysis fs pm.1 pm.2) with hloaded
  have hmodels : (mainOutput fs).models = staticModels.map (·.2) := rfl
  have hsub : (loaded.map (·.model)).Sublist (staticModels.map (·.2)) := by
    rw [hloaded, loaded_models_eq fs staticModels]
    exact List.Sublist.map _ (List.filter_sublist _)
  have hnames : (loaded.map (·.model)).Nodup :=
    hsub.nodup (by rw [hmodels] at *; decide)
  refine ⟨by rw [hmodels]; rfl, by rw [hmodels] at *; exact hsub, ?_⟩
  intro a ha
  have ha' : a ∈ (buildIndex loaded).map (fun kb =>
      SynthArticle.mk kb.2.article kb.2.perspectives (articleConsensus kb.2.perspectives)) := by
    have hperm := List.mergeSort_perm ((buildIndex loaded).map (fun kb =>
      SynthArticle.mk kb.2.article kb.2.perspectives (articleConsensus kb.2.perspectives)))
      (fun a b => b.perspectives.length ≤ a.perspectives.length)
    exact hperm.mem_iff.mp ha
  rcases List.mem_map.mp ha' with ⟨kb, hkb, hab⟩
  have hpersp : kb.2.perspectives =
      ((pairsOf loaded).filter (fun mr => pairKey mr = kb.1)).map pairPersp :=
    bucket_persps_eq loaded kb.1 kb.2 (by simpa using hkb)
  refine ⟨by rw [← hab]; rfl, ?_, ?_⟩
  · intro p hp
    rw [← hab] at hp
    simp only at hp
    rw [hpersp] at hp
    rcases List.mem_map.mp hp with ⟨mr, hmr, hmrp⟩
    rcases mem_pairsOf loaded mr (List.mem_of_mem_filter hmr) with ⟨md, hmd, hname, _⟩
    exact ⟨md, hmd, by rw [← hmrp]; exact hname ▸ rfl⟩
  · rw [← hab]
    simp only
    rw [hpersp, filtered_models_eq]
    refine nodup_flatMap_models kb.1 loaded hnames ?_
    intro md hmd
    exact filter_length_le_one md.analyses recKey (hwf md hmd) kb.1

/-- **C7, witness** on a file system carrying one of the eight artifacts:
the full model list is still advertised, and every article's coverage count
equals its number of entries. -/
theorem C7_partial_artifacts_witness :
    (mainOutput fsOne).models = ["GPT-4o Mini", "Llama 3.1 8B", "Phi-4 Mini",
      "Mistral Small", "GPT-4o", "Llama 3.1 405B", "DeepSeek-V3", "Grok 3"] ∧
    ∀ a ∈ (mainOutput fsOne).articles,
      a.consensus.models_analyzed = a.perspectives.length := by
  have h := C7_partial_artifacts fsOne (by decide)
  exact ⟨h.1, fun a ha => (h.2.2 a ha).1⟩

end NewsPipeline

namespace NewsPipeline

/-! ## Claim about per-item error isolation (C8) -/

/-- The batch fold produces one record per article, in order. -/
theorem analyzeArticles_fst (atts : Nat → Nat → Except CallErr ChatResponse)
    (displayName modelName now : String) (articles : List Json) :
    (analyzeArticles atts displayName modelName now articles).1 =
      (articles.enum).map (fun p =>
        Json.obj [("article", p.2),
          ("analysis", analyzeArticle (atts p.1) displayName modelName now)]) := by
  unfold analyzeArticles
  generalize articles.enum = ps
  suffices h : ∀ (ps : List (Nat × Json)) (acc : List Json) (tot : Nat × Nat × Nat),
      (ps.foldl (fun acc p =>
        let analysis := analyzeArticle (atts p.1) displayName modelName now
        (acc.1 ++ [Json.obj [("article", p.2), ("analysis", analysis)]],
          addUsage acc.2 analysis)) (acc, tot)).1 =
        acc ++ ps.map (fun p => Json.obj [("article", p.2),
          ("analysis", analyzeArticle (atts p.1) displayName modelName now)]) by
    simpa using h ps [] (0, 0, 0)
  intro ps
  induction ps with
  | nil => intro acc tot; simp
  | cons p rest ih =>
    intro acc tot
    simp only [List.foldl_cons, List.map_cons]
    rw [ih]
    simp

/-- **C8.** A transport failure never escapes one item's analysis: whenever
the retried call ends in an error — retries exhausted or a non-retryable
failure — `analyze_article` returns an analysis object carrying the
exception message in `error`, the exception type in `error_type`, sentiment
`"unknown"`, and the placeholder summary, instead of propagating. And the
batch driver always yields exactly one record per article, in order, each
pairing the article with its (possibly error) analysis — a failing item
never aborts the batch. -/
theorem C8_error_isolation (att : Nat → Except CallErr ChatResponse) (e : CallErr)
    (displayName modelName now : String)
    (h : (callWithRetry att).1 = .error e) :
    (analyzeArticle att displayName modelName now =
        errorAnalysis displayName modelName now e.msg e.kind ∧
      (analyzeArticle att displayName modelName now).look "error" =
        some (.str e.msg) ∧
      (analyzeArticle att displayName modelName now).look "error_type" =
        some (.str e.kind) ∧
      (analyzeArticle att displayName modelName now).look "sentiment" =
        some (.str "unknown") ∧
      (analyzeArticle att displayName modelName now).look "summary" =
        some (.str ("Analysis failed: " ++ e.msg))) ∧
    (∀ (atts : Nat → Nat → Except CallErr ChatResponse) (articles : List Json),
      (analyzeArticles atts displayName modelName now articles).1.length =
          articles.length ∧
        ∀ i : Nat,
          ((analyzeArticles atts displayName modelName now articles).1[i]?).map
              (fun rec => rec.look "article") =
            (articles[i]?).map some) := by
  constructor
  · have he : analyzeArticle att displayName modelName now =
        errorAnalysis displayName modelName now e.msg e.kind := by
      unfold analyzeArticle
      rw [h]
    refine ⟨he, ?_, ?_, ?_, ?_⟩ <;>
      simp [he, errorAnalysis, Json.look, assocFind]
  · intro atts articles
    constructor
    · rw [analyzeArticles_fst]
      simp
    · intro i
      rw [analyzeArticles_fst]
      simp [List.getElem?_map, Json.look, assocFind]
      cases articles[i]? <;> simp [Json.look, assocFind]

/-- **C8, witness**: a transport that always rate-limits yields the error
analysis with sentiment `"unknown"`, and a one-article batch still yields its
record. -/
theorem C8_error_isolation_witness :
    (analyzeArticle (fun _ => .error (.rateLimit "rl")) "GPT-4o" "openai/gpt-4o" "T").look
        "sentiment" = some (.str "unknown") ∧
      (analyzeArticles (fun _ _ => .error (.rateLimit "rl")) "GPT-4o" "openai/gpt-4o" "T"
          [Json.obj []]).1.length = 1 :=
  ⟨((C8_error_isolation (fun _ => .error (.rateLimit "rl")) (.rateLimit "rl")
      "GPT-4o" "openai/gpt-4o" "T" (by decide)).1).2.2.2.1,
   ((C8_error_isolation (fun _ => .error (.rateLimit "rl")) (.rateLimit "rl")
      "GPT-4o" "openai/gpt-4o" "T" (by decide)).2 (fun _ _ => .error (.rateLimit "rl"))
      [Json.obj []]).1⟩

/-! ## Claims about the repair passes (C9, C10) -/

/-- An undetected record passes through the key_points pass unchanged. -/
theorem fixRecordKP_of_undetected (item : Json) (h : kpUndetected item) :
    fixRecordKP item = some (item, false) := by
  obtain ⟨ikvs, rfl, hcase⟩ := h
  rcases hcase with hnone | ⟨akvs, hana, s, hsum, h1, h2⟩
  · simp [fixRecordKP, hnone]
  · simp only [fixRecordKP, hana, hsum, h1, h2]
    simp

/-- An undetected record passes through the fence pass unchanged. -/
theorem fixRecordFence_of_undetected (item : Json) (h : fenceUndetected item) :
    fixRecordFence item = some (item, false) := by
  obtain ⟨ikvs, rfl, hcase⟩ := h
  rcases hcase with hnone | ⟨akvs, hana, s, hsum, h1, h2⟩
  · simp [fixRecordFence, hnone]
  · simp only [fixRecordFence, hana, hsum, h1, h2]
    simp

/-- A record list every item of which is untouched folds to zero fixes. -/
theorem fixList_stable (f : Json → Option (Json × Bool)) :
    ∀ (items : List Json), (∀ item ∈ items, f item = some (item, false)) →
      fixList f items = some (items, 0) := by
  intro items
  induction items with
  | nil => intro _; rfl
  | cons it rest ih =>
    intro h
    simp only [fixList, h it (List.mem_cons_self _ _),
      ih (fun i hi => h i (List.mem_cons_of_mem _ hi))]
    rfl

/-- **C9, counterexample.** The claim says both repair passes are idempotent
on every artifact. On `brokenArtifact` — whose stuffed JSON itself has a
brace-opening `summary` and a decodable `key_points[0]` — the first
key_points-extraction run fixes one record, and the second run fixes it
again, producing different content. -/
theorem C9_cex_second_run_changes :
    fixFileKP brokenArtifact = some (onceFixedArtifact, 1) ∧
    fixFileKP onceFixedArtifact = some (twiceFixedArtifact, 1) ∧
    twiceFixedArtifact ≠ onceFixedArtifact := by
  decide

/-- **C9, amended.** A second run of a repair pass produces no further change
provided no record of the first run's output still matches that pass's
detection signature (for the key_points pass: a stripped `summary` beginning
with an opening brace or the `**JSON Response` preamble; for the fence pass:
one beginning with a fence marker or containing a `json` fence marker among
its first 100 characters). The unrestricted claim fails when a repaired
`summary` itself re-triggers detection, as in the counterexample. -/
theorem C9_stable_when_undetected (e : Json) (kvs dkvs : List (String × Json))
    (items : List Json) (he : e = .obj kvs)
    (hd : assocFind kvs "data" = some (.obj dkvs))
    (ha : assocFind dkvs "analyses" = some (.arr items)) :
    ((∀ item ∈ items, kpUndetected item) → fixFileKP e = some (e, 0)) ∧
    ((∀ item ∈ items, fenceUndetected item) → fixFileFence e = some (e, 0)) := by
  subst he
  constructor
  · intro h
    have hlist : fixList fixRecordKP items = some (items, 0) :=
      fixList_stable _ items (fun i hi => fixRecordKP_of_undetected i (h i hi))
    simp only [fixFileKP, fixFileWith, hd, ha, hlist]
    rfl
  · intro h
    have hlist : fixList fixRecordFence items = some (items, 0) :=
      fixList_stable _ items (fun i hi => fixRecordFence_of_undetected i (h i hi))
    simp only [fixFileFence, fixFileWith, hd, ha, hlist]
    rfl

/-- **C9, witness** for the amended theorem: the twice-fixed artifact (whose
record's summary is plain text) is a fixed point of both passes. -/
theorem C9_stable_when_undetected_witness :
    fixFileKP twiceFixedArtifact = some (twiceFixedArtifact, 0) ∧
    fixFileFence twiceFixedArtifact = some (twiceFixedArtifact, 0) := by
  have h := C9_stable_when_undetected twiceFixedArtifact
    [("data", .obj [("analyses", .arr [
      .obj [("article", .obj [("title", .str "t")]),
        ("analysis", .obj [
          ("summary", .str "done"), ("key_points", .arr []),
          ("sentiment", .str "neutral"), ("confidence", .str "medium"),
          ("bias_check", .str ""), ("missing_context", .str ""),
          ("implications", .str ""), ("model", .str ""), ("model_id", .str ""),
          ("analyzed_at", .str "")])]])])]
    [("analyses", .arr [
      .obj [("article", .obj [("title", .str "t")]),
        ("analysis", .obj [
          ("summary", .str "done"), ("key_points", .arr []),
          ("sentiment", .str "neutral"), ("confidence", .str "medium"),
          ("bias_check", .str ""), ("missing_context", .str ""),
          ("implications", .str ""), ("model", .str ""), ("model_id", .str ""),
          ("analyzed_at", .str "")])]])]
    [.obj [("article", .obj [("title", .str "t")]),
      ("analysis", .obj [
        ("summary", .str "done"), ("key_points", .arr []),
        ("sentiment", .str "neutral"), ("confidence", .str "medium"),
        ("bias_check", .str ""), ("missing_context", .str ""),
        ("implications", .str ""), ("model", .str ""), ("model_id", .str ""),
        ("analyzed_at", .str "")])]]
    rfl (by decide) (by decide)
  refine ⟨h.1 ?_, h.2 ?_⟩ <;>
  · intro item hitem
    rw [List.mem_singleton.mp hitem]
    exact ⟨_, rfl, Or.inr ⟨[("summary", .str "done"), ("key_points", .arr []),
      ("sentiment", .str "neutral"), ("confidence", .str "medium"),
      ("bias_check", .str ""), ("missing_context", .str ""),
      ("implications", .str ""), ("model", .str ""), ("model_id", .str ""),
      ("analyzed_at", .str "")], by decide, "done", by decide, by decide, by decide⟩⟩

/-- **C10.** The fence-stripping pass replaces a detected record's analysis
wholesale with the object parsed from `key_points[0]` — metadata of the
original analysis is not carried over unless it happens to be in the parsed
object — whereas the key_points-extraction pass rebuilds the analysis from
the parsed object and explicitly carries over the original `model`,
`model_id` and `analyzed_at` values, plus `token_usage` when present. -/
theorem C10_wholesale_vs_preserving :
    (∀ (ikvs akvs : List (String × Json)) (s : String) (kp parsed : Json)
        (raw : String) (n : Nat),
      assocFind ikvs "analysis" = some (.obj akvs) →
      (assocFind akvs "summary").getD (.str "") = .str s →
      (pyStarts (pyStrip s) "```" ||
        pyContains (pyTake (pyStrip s) 100) "```json") = true →
      assocFind akvs "key_points" = some kp →
      pyLen kp = some n → 0 < n →
      pyIndex0 kp = some (.str raw) →
      Json.parse (stripCodeFences raw) = some parsed →
      fixRecordFence (.obj ikvs) =
        some (.obj (objInsert ikvs "analysis" parsed), true)) ∧
    (∀ (ikvs akvs arkvs pkvs : List (String × Json)) (s ts : String) (kp : Json)
        (raw : String) (n : Nat),
      assocFind ikvs "analysis" = some (.obj akvs) →
      (assocFind akvs "summary").getD (.str "") = .str s →
      ((assocFind akvs "summary").isSome &&
        (pyStarts (pyStrip s) "\x7b" || pyStarts (pyStrip s) "**JSON Response") &&
        (assocFind akvs "key_points").isSome) = true →
      assocFind akvs "key_points" = some kp →
      pyLen kp = some n → 0 < n →
      pyIndex0 kp = some (.str raw) →
      extractJsonFromString raw = some (.obj pkvs) →
      (!pkvs.isEmpty && (assocFind pkvs "summary").isSome) = true →
      assocFind ikvs "article" = some (.obj arkvs) →
      assocFind arkvs "title" = some (.str ts) →
      fixRecordKP (.obj ikvs) =
        some (.obj (objInsert ikvs "analysis" (.obj (
          [("summary", (assocFind pkvs "summary").getD (.str "")),
           ("key_points", (assocFind pkvs "key_points").getD (.arr [])),
           ("sentiment", (assocFind pkvs "sentiment").getD (.str "neutral")),
           ("confidence", (assocFind pkvs "confidence").getD (.str "medium")),
           ("bias_check", (assocFind pkvs "bias_check").getD (.str "")),
           ("missing_context", (assocFind pkvs "missing_context").getD (.str "")),
           ("implications", (assocFind pkvs "implications").getD (.str "")),
           ("model", (assocFind akvs "model").getD (.str "")),
           ("model_id", (assocFind akvs "model_id").getD (.str "")),
           ("analyzed_at", (assocFind akvs "analyzed_at").getD (.str ""))] ++
          (match assocFind akvs "token_usage" with
           | some tu => [("token_usage", tu)]
           | none => [])))), true)) := by
  constructor
  · intro ikvs akvs s kp parsed raw n hana hsum hdet hkp hlen hn hidx hparse
    simp only [fixRecordFence, hana, hsum, hdet, hkp, hlen, hidx, hparse]
    simp [hn, Nat.pos_iff_ne_zero.mp hn]
  · intro ikvs akvs arkvs pkvs s ts kp raw n hana hsum hdet hkp hlen hn hidx
      hext hacc hart htitle
    cases htu : assocFind akvs "token_usage" with
    | none =>
      simp only [Bool.and_eq_true, Bool.or_eq_true] at hdet
      simp [fixRecordKP, hana, hsum, hkp, hlen, hidx, hext, hacc, hart,
        htitle, htu, Nat.pos_iff_ne_zero.mp hn]
      rw [if_pos ⟨hdet.1.1, hdet.1.2⟩, if_pos hn]
    | some tu =>
      simp only [Bool.and_eq_true, Bool.or_eq_true] at hdet
      simp [fixRecordKP, hana, hsum, hkp, hlen, hidx, hext, hacc, hart,
        htitle, htu, Nat.pos_iff_ne_zero.mp hn]
      rw [if_pos ⟨hdet.1.1, hdet.1.2⟩, if_pos hn]

/-- **C10, witness** at one record of each corrupted shape: the fence repair
drops the original `model`/`model_id`/`analyzed_at`, the key_points repair
keeps them along with `token_usage`. -/
theorem C10_wholesale_vs_preserving_witness :
    fixRecordFence fenceItem =
      some (.obj (objInsert
        [("article", .obj [("title", .str "T")]),
         ("analysis", .obj [("summary", .str "```json"),
           ("key_points", .arr [.str "```json\n\x7b\"summary\": \"ok\"\x7d\n```"]),
           ("model", .str "GPT-4o"), ("model_id", .str "openai/gpt-4o"),
           ("analyzed_at", .str "2025-01-01")])]
        "analysis" (.obj [("summary", .str "ok")])), true) ∧
    fixRecordKP kpItem =
      some (.obj (objInsert
        [("article", .obj [("title", .str "T")]),
         ("analysis", .obj [("summary", .str "\x7b"),
           ("key_points", .arr [.str "\x7b\"summary\": \"clean\"\x7d"]),
           ("model", .str "GPT-4o"), ("model_id", .str "openai/gpt-4o"),
           ("analyzed_at", .str "2025-01-01"),
           ("token_usage", .obj [("total_tokens", .num 7)])])]
        "analysis" (.obj
          [("summary", .str "clean"),
           ("key_points", .arr []),
           ("sentiment", .str "neutral"),
           ("confidence", .str "medium"),
           ("bias_check", .str ""),
           ("missing_context", .str ""),
           ("implications", .str ""),
           ("model", .str "GPT-4o"),
           ("model_id", .str "openai/gpt-4o"),
           ("analyzed_at", .str "2025-01-01"),
           ("token_usage", .obj [("total_tokens", .num 7)])])), true) := by
  constructor
  · exact C10_wholesale_vs_preserving.1
      [("article", .obj [("title", .str "T")]),
       ("analysis", .obj [("summary", .str "```json"),
         ("key_points", .arr [.str "```json\n\x7b\"summary\": \"ok\"\x7d\n```"]),
         ("model", .str "GPT-4o"), ("model_id", .str "openai/gpt-4o"),
         ("analyzed_at", .str "2025-01-01")])]
      [("summary", .str "```json"),
       ("key_points", .arr [.str "```json\n\x7b\"summary\": \"ok\"\x7d\n```"]),
       ("model", .str "GPT-4o"), ("model_id", .str "openai/gpt-4o"),
       ("analyzed_at", .str "2025-01-01")]
      "```json" (.arr [.str "```json\n\x7b\"summary\": \"ok\"\x7d\n```"])
      (.obj [("summary", .str "ok")])
      "```json\n\x7b\"summary\": \"ok\"\x7d\n```" 1
      (by decide) (by decide) (by decide) (by decide) (by decide) (by decide)
      (by decide) (by decide)
  · have h := C10_wholesale_vs_preserving.2
      [("article", .obj [("title", .str "T")]),
       ("analysis", .obj [("summary", .str "\x7b"),
         ("key_points", .arr [.str "\x7b\"summary\": \"clean\"\x7d"]),
         ("model", .str "GPT-4o"), ("model_id", .str "openai/gpt-4o"),
         ("analyzed_at", .str "2025-01-01"),
         ("token_usage", .obj [("total_tokens", .num 7)])])]
      [("summary", .str "\x7b"),
       ("key_points", .arr [.str "\x7b\"summary\": \"clean\"\x7d"]),
       ("model", .str "GPT-4o"), ("model_id", .str "openai/gpt-4o"),
       ("analyzed_at", .str "2025-01-01"),
       ("token_usage", .obj [("total_tokens", .num 7)])]
      [("title", .str "T")]
      [("summary", .str "clean")]
      "\x7b" "T" (.arr [.str "\x7b\"summary\": \"clean\"\x7d"])
      "\x7b\"summary\": \"clean\"\x7d" 1
      (by decide) (by decide) (by decide) (by decide) (by decide) (by decide)
      (by decide) (by decide) (by decide) (by decide) (by decide)
    exact h

end NewsPipeline
